import Mathlib

/-!
Verification of `osx-proxmox-next` (Python) against its natural-language
specification.  The Python modules `smbios.py`, `domain.py`, `defaults.py`,
`assets.py`, `planner.py`, `executor.py` and `downloader.py` are shallowly
embedded below: pure functions become Lean functions, random draws become
explicit parameters constrained to the distributions the source draws from,
filesystem and network state becomes explicit state passing, and Python
exceptions become `Option`/`Except`.
-/

namespace OsxProxmox

/-! ## Python string primitives

Python strings are modelled as Lean `String`s; the Python operations used by
the source are defined on the underlying character list. -/

/-- Model of Python `str.replace(":", "")` (single-character needle, empty
replacement removes every occurrence). -/
def removeColons (s : String) : String :=
  String.mk (s.data.filter (fun c => c ≠ ':'))

/-- Model of Python `str.upper()` restricted to ASCII data (all strings the
source manipulates are ASCII). -/
def asciiUpper (s : String) : String :=
  String.mk (s.data.map Char.toUpper)

/-- Model of Python `str.lower()` restricted to ASCII data. -/
def asciiLower (s : String) : String :=
  String.mk (s.data.map Char.toLower)

/-- Model of the Python slice `s[:n]`. -/
def strTake (s : String) (n : Nat) : String :=
  String.mk (s.data.take n)

/-- Model of Python `s[i]` as a total lookup (`none` models `IndexError`). -/
def strGet (s : String) (i : Nat) : Option Char :=
  s.data.get? i

/-- Model of Python `len(s)`. -/
def strLen (s : String) : Nat := s.data.length

/-- Model of Python `str(d)` for a decimal digit `d < 10`. -/
def digitStr (d : Nat) : String := String.mk [Nat.digitChar d]

/-- Model of Python `str(i)` on `int`. -/
def intStr : Int → String
  | Int.ofNat n => Nat.repr n
  | Int.negSucc n => "-" ++ Nat.repr (n + 1)

/-! ## shlex (used by `PlanStep.command`)

`shlex.join` renders an argv the way `planner.PlanStep.command` does:
each argument is quoted by `shlex.quote` and the results are joined with
single spaces. -/

/-- Characters `shlex._find_unsafe` accepts: ASCII word characters plus
`@ % + = : , .` slash and dash. -/
def shlexSafeChar (c : Char) : Bool :=
  c.isAlpha || c.isDigit || c = '_' || c = '@' || c = '%' || c = '+' ||
  c = '=' || c = ':' || c = ',' || c = '.' || c = '/' || c = '-'

/-- Model of Python `s.replace(chr(39), ...)` used inside `shlex.quote`:
every single quote becomes `'"'"'`. -/
def shlexEscapeQuotes (s : String) : String :=
  String.mk (s.data.flatMap (fun c =>
    if c = '\'' then ['\'', '"', '\'', '"', '\''] else [c]))

/-- Model of `shlex.quote`. -/
def shlexQuote (s : String) : String :=
  if s.data.isEmpty then "''"
  else if s.data.all shlexSafeChar then s
  else "'" ++ shlexEscapeQuotes s ++ "'"

/-- Model of `shlex.join`: `' '.join(quote(arg) for arg in split_command)`. -/
def shlexJoin : List String → String
  | [] => ""
  | [a] => shlexQuote a
  | a :: b :: rest => shlexQuote a ++ " " ++ shlexJoin (b :: rest)

/-- `strContains s t`: `t` occurs as a contiguous substring of `s`. -/
def strContains (s t : String) : Prop :=
  ∃ a b : String, s = a ++ t ++ b

/-! ## smbios.py -/

/-- Base-34 alphabet (no I, no O) — `smbios.BASE34`. -/
def BASE34 : String := "0123456789ABCDEFGHJKLMNPQRSTUVWXYZ"

/-- `smbios._YEAR_CHARS`: year encoding characters. -/
def YEAR_CHARS : String := "CDFGHJKLMN"

/-- Model of Python `BASE34.index(ch)`: `none` models the `ValueError`. -/
def charIndex : List Char → Char → Option Nat
  | [], _ => none
  | d :: rest, c => if c = d then some 0 else (charIndex rest c).map (· + 1)

def base34Idx (c : Char) : Option Nat := charIndex BASE34.data c

/-- Per-model manufacturing data — `smbios.APPLE_PLATFORM_DATA` entry shape. -/
structure PlatformData where
  model_codes : List String
  board_codes : List String
  country_codes : List String
  year_lo : Nat
  year_hi : Nat

/-- The `"MacPro7,1"` entry of `APPLE_PLATFORM_DATA`. -/
def macPro71Data : PlatformData :=
  { model_codes := ["P7QM", "PLXV", "PLXW", "PLXX", "PLXY",
                    "P7QJ", "P7QK", "P7QL", "P7QN", "P7QP",
                    "NYGV", "K7GF", "K7GD", "N5RN"]
    board_codes := ["K3F7"]
    country_codes := ["C02", "C07", "CK2"]
    year_lo := 2019
    year_hi := 2023 }

def APPLE_PLATFORM_DATA : List (String × PlatformData) := [("MacPro7,1", macPro71Data)]

/-- `smbios.MLB_BLOCK1`. -/
def MLB_BLOCK1 : List String :=
  ["200", "600", "403", "404", "405", "303",
   "108", "207", "609", "501", "306", "102", "701", "301"]

/-- `smbios.MLB_BLOCK2 = [f"Q{c}" for c in BASE34]`. -/
def MLB_BLOCK2 : List String :=
  BASE34.data.map (fun c => String.mk ['Q', c])

def SMBIOS_MODELS : List (String × String) :=
  [("ventura", "MacPro7,1"), ("sonoma", "MacPro7,1"),
   ("sequoia", "MacPro7,1"), ("tahoe", "MacPro7,1")]

def DEFAULT_SMBIOS_MODEL : String := "MacPro7,1"

/-- Model of a Python `dict` lookup on a string-keyed literal dictionary. -/
def dictGet {α : Type} (key : String) : List (String × α) → Option α
  | [] => none
  | (k, v) :: rest => if key = k then some v else dictGet key rest

/-- `smbios.model_for_macos`: `SMBIOS_MODELS.get(macos, DEFAULT_SMBIOS_MODEL)`. -/
def model_for_macos (macos : String) : String :=
  (dictGet macos SMBIOS_MODELS).getD DEFAULT_SMBIOS_MODEL

/-- `smbios.SmbiosIdentity`. -/
structure SmbiosIdentity where
  serial : String
  mlb : String
  uuid : String
  rom : String
  model : String
  mac : String
deriving DecidableEq

/-- `smbios._encode_year_week`.  Out-of-range indexing (Python `IndexError`)
is `none`; the decade offset uses Python integer `%` semantics. -/
def encode_year_week (year week : Nat) : Option (Char × Char) :=
  let decadeOffset : Nat := (((year : Int) - 2010) % 10).toNat
  if week ≤ 26 then
    match strGet YEAR_CHARS decadeOffset, strGet BASE34 week with
    | some yc, some wc => some (yc, wc)
    | _, _ => none
  else
    match strGet YEAR_CHARS ((decadeOffset + 1) % 10), strGet BASE34 (week - 26) with
    | some yc, some wc => some (yc, wc)
    | _, _ => none

/-- `smbios._encode_line`: three pure base-34 digits. -/
def encode_line (line : Nat) : Option String :=
  match strGet BASE34 (line / (34 * 34)), strGet BASE34 ((line / 34) % 34),
        strGet BASE34 (line % 34) with
  | some d1, some d2, some d3 => some (String.mk [d1, d2, d3])
  | _, _, _ => none

/-- Manufacturing metadata record produced by `smbios._random_manufacturing_data`;
the random draws become explicit fields. -/
structure MfgData where
  country : String
  year : Nat
  week : Nat
  line : Nat
  model_code : String

/-- What `_random_manufacturing_data` guarantees about its draws. -/
def MfgValid (pd : PlatformData) (m : MfgData) : Prop :=
  m.country ∈ pd.country_codes ∧ pd.year_lo ≤ m.year ∧ m.year ≤ pd.year_hi ∧
  1 ≤ m.week ∧ m.week ≤ 52 ∧ m.line < 3400 ∧ m.model_code ∈ pd.model_codes

/-- `smbios._build_apple_serial`:
`country(3) ++ year_char ++ week_char ++ line(3) ++ model_code(4)`. -/
def build_apple_serial (mfg : MfgData) : Option String :=
  match encode_year_week mfg.year mfg.week, encode_line mfg.line with
  | some (yc, wc), some line3 =>
      some (mfg.country ++ String.mk [yc] ++ String.mk [wc] ++ line3 ++ mfg.model_code)
  | _, _ => none

/-- Weight used by the mod-34 checksum: 3 when `i % 2` equals the parity `p`,
else 1 (the source writes `3 if ((i & 1) == (len & 1)) else 1`). -/
def mlbWeight (p i : Nat) : Nat := if i % 2 = p then 3 else 1

/-- Weighted base-34 digit sum of a character list starting at position `i`
(the loop body shared by `_verify_mlb_checksum` and `_build_apple_mlb`);
`none` models `BASE34.index` raising. -/
def wsum (p : Nat) : List Char → Nat → Option Nat
  | [], _ => some 0
  | c :: cs, i =>
      match base34Idx c, wsum p cs (i + 1) with
      | some j, some r => some (mlbWeight p i * j + r)
      | _, _ => none

/-- `smbios._verify_mlb_checksum`. -/
def verify_mlb_checksum (mlb : String) : Option Bool :=
  (wsum (strLen mlb % 2) mlb.data 0).map (fun s => s % 34 == 0)

/-- Model of the Python f-string `f"{n:02d}"` for `n < 100`. -/
def pad2 (n : Nat) : String := String.mk [Nat.digitChar (n / 10), Nat.digitChar (n % 10)]

/-- `smbios._build_apple_mlb`: 15-char prefix plus block3 computed so the
mod-34 alternating (3,1) checksum is satisfied.  The random choices of
board, block1 and block2 are explicit arguments. -/
def build_apple_mlb (mfg : MfgData) (model : String)
    (board block1 block2 : String) : Option String :=
  match (dictGet model APPLE_PLATFORM_DATA) with
  | none => none
  | some _ =>
    let pfx := mfg.country ++ digitStr (mfg.year % 10) ++ pad2 mfg.week ++
               block1 ++ block2 ++ board
    match wsum (17 % 2) pfx.data 0 with
    | none => none
    | some prefix_sum =>
      let j16 : Nat := ((-(prefix_sum : Int)) % 34).toNat
      match strGet BASE34 j16 with
      | none => none
      | some c16 => some (pfx ++ String.mk ['0', c16])

/-- Hex digit used by the f-string `{b:02X}`. -/
def hexDigitU (n : Nat) : Char := (strGet "0123456789ABCDEF" n).getD '?'

/-- Model of `f"{b:02X}"` for `b < 256`. -/
def hex2 (b : Nat) : String := String.mk [hexDigitU (b / 16), hexDigitU (b % 16)]

def joinColon : List String → String
  | [] => ""
  | [a] => a
  | a :: b :: t => a ++ ":" ++ joinColon (b :: t)

/-- `smbios.generate_mac` with its six random bytes as explicit inputs:
the first octet gets the locally-administered bit set and the multicast
bit cleared. -/
def generate_mac (r0 : Nat) (rest : List Nat) : String :=
  let firstByte := (r0 ||| 0x02) &&& 0xFE
  joinColon ((firstByte :: rest).map hex2)

/-- `smbios.generate_rom_from_mac`: `mac.replace(":", "")[:12].upper()`. -/
def generate_rom_from_mac (mac : String) : String :=
  asciiUpper (strTake (removeColons mac) 12)

/-- All random draws consumed by `generate_smbios`. -/
structure SmbiosRand where
  mfg : MfgData
  board : String
  block1 : String
  block2 : String
  macR0 : Nat
  macRest : List Nat
  uuidStr : String
  randSerial : String
  randMlb : String
  randRom : String

/-- The draws lie in the pools `generate_smbios` samples from
(`secrets.choice` / `secrets.randbelow` in the source). -/
def SmbiosRandValid (r : SmbiosRand) : Prop :=
  MfgValid macPro71Data r.mfg ∧ r.board ∈ macPro71Data.board_codes ∧
  r.block1 ∈ MLB_BLOCK1 ∧ r.block2 ∈ MLB_BLOCK2 ∧
  r.macR0 < 256 ∧ r.macRest.length = 5 ∧ (∀ b ∈ r.macRest, b < 256)

/-- `smbios.generate_smbios`.  In Apple-services mode serial and MLB are
built from the same manufacturing data; otherwise the random 12/17-char
draws are used directly. -/
def generate_smbios (macos : String) (apple_services : Bool)
    (r : SmbiosRand) : Option SmbiosIdentity :=
  let model := model_for_macos macos
  if apple_services then
    let mac := generate_mac r.macR0 r.macRest
    let rom := generate_rom_from_mac mac
    match build_apple_serial r.mfg, build_apple_mlb r.mfg model r.board r.block1 r.block2 with
    | some serial, some mlb =>
        some { serial := serial, mlb := mlb, uuid := r.uuidStr,
               rom := rom, model := model, mac := mac }
    | _, _ => none
  else
    some { serial := r.randSerial, mlb := r.randMlb, uuid := r.uuidStr,
           rom := r.randRom, model := model, mac := "" }

/-! ### Supporting lemmas for the SMBIOS generator -/

theorem data_append (a b : String) : (a ++ b).data = a.data ++ b.data := rfl

/-- Bool-level roundtrip check for a base-34 index. -/
def base34RoundTripB (j : Nat) : Bool :=
  match strGet BASE34 j with
  | some c => base34Idx c == some j
  | none => false

theorem base34_roundtripB : ∀ j, j < 34 → base34RoundTripB j = true := by decide

theorem base34_roundtrip (j : Nat) (hj : j < 34) :
    ∃ c, strGet BASE34 j = some c ∧ base34Idx c = some j := by
  have h := base34_roundtripB j hj
  unfold base34RoundTripB at h
  rcases hg : strGet BASE34 j with _ | c
  · rw [hg] at h; exact absurd h (by simp)
  · rw [hg] at h
    exact ⟨c, rfl, by simpa using h⟩

theorem base34_all_indexable : ∀ c ∈ BASE34.data, (base34Idx c).isSome = true := by decide

theorem digitChar_base34 : ∀ d, d < 10 → base34Idx (Nat.digitChar d) = some d := by decide

theorem yearChars_get (i : Nat) (hi : i < 10) :
    ∃ c, strGet YEAR_CHARS i = some c ∧ c ∈ YEAR_CHARS.data := by
  have hlen : YEAR_CHARS.data.length = 10 := by decide
  have hi' : i < YEAR_CHARS.data.length := by omega
  refine ⟨YEAR_CHARS.data.get ⟨i, hi'⟩, ?_, List.get_mem _ _ _⟩
  simp [strGet, List.get?_eq_get hi']

theorem encode_year_week_spec (year week : Nat) (h1 : 1 ≤ week) (h2 : week ≤ 52) :
    ∃ yc wc j, encode_year_week year week = some (yc, wc) ∧
      yc ∈ YEAR_CHARS.data ∧ base34Idx wc = some j ∧ 1 ≤ j ∧ j ≤ 26 := by
  have hoff : (((year : Int) - 2010) % 10).toNat < 10 := by omega
  unfold encode_year_week
  by_cases hw : week ≤ 26
  · obtain ⟨yc, hyc, hycm⟩ := yearChars_get _ hoff
    obtain ⟨wc, hwc, hwidx⟩ := base34_roundtrip week (by omega)
    refine ⟨yc, wc, week, ?_, hycm, hwidx, h1, hw⟩
    simp only [if_pos hw, hyc, hwc]
  · obtain ⟨yc, hyc, hycm⟩ := yearChars_get ((((((year : Int) - 2010) % 10).toNat) + 1) % 10)
      (Nat.mod_lt _ (by omega))
    obtain ⟨wc, hwc, hwidx⟩ := base34_roundtrip (week - 26) (by omega)
    refine ⟨yc, wc, week - 26, ?_, hycm, hwidx, by omega, by omega⟩
    simp only [if_neg hw, hyc, hwc]

theorem encode_line_spec (line : Nat) (h : line < 3400) :
    ∃ s, encode_line line = some s ∧ s.data.length = 3 := by
  obtain ⟨c1, hc1, _⟩ := base34_roundtrip (line / (34 * 34)) (by omega)
  obtain ⟨c2, hc2, _⟩ := base34_roundtrip ((line / 34) % 34) (Nat.mod_lt _ (by omega))
  obtain ⟨c3, hc3, _⟩ := base34_roundtrip (line % 34) (Nat.mod_lt _ (by omega))
  exact ⟨String.mk [c1, c2, c3], by simp only [encode_line, hc1, hc2, hc3], rfl⟩

theorem wsum_append (p : Nat) (a b : List Char) (i : Nat) :
    wsum p (a ++ b) i =
      (wsum p a i).bind (fun x => (wsum p b (i + a.length)).map (fun y => x + y)) := by
  induction a generalizing i with
  | nil => simp [wsum]
  | cons c cs ih =>
    have hlen : i + (c :: cs).length = i + 1 + cs.length := by
      simp [List.length_cons]; omega
    rw [show (c :: cs) ++ b = c :: (cs ++ b) from rfl, hlen]
    cases hc : base34Idx c with
    | none => simp [wsum, hc]
    | some j =>
      cases hcs : wsum p cs (i + 1) with
      | none =>
        have h2 : wsum p (cs ++ b) (i + 1) = none := by rw [ih (i + 1), hcs]; rfl
        simp [wsum, hc, hcs, h2]
      | some r =>
        cases hb : wsum p b (i + 1 + cs.length) with
        | none =>
          have h2 : wsum p (cs ++ b) (i + 1) = none := by rw [ih (i + 1), hcs, hb]; rfl
          simp [wsum, hc, hcs, hb, h2]
        | some y =>
          have h2 : wsum p (cs ++ b) (i + 1) = some (r + y) := by rw [ih (i + 1), hcs, hb]; rfl
          simp [wsum, hc, hcs, hb, h2, Nat.add_assoc]

theorem wsum_isSome (p : Nat) (l : List Char)
    (h : ∀ c ∈ l, (base34Idx c).isSome = true) :
    ∀ i, ∃ v, wsum p l i = some v := by
  induction l with
  | nil => exact fun i => ⟨0, rfl⟩
  | cons c cs ih =>
    intro i
    have hc := h c (by simp)
    rcases hcrc : base34Idx c with _ | j
    · rw [hcrc] at hc; simp at hc
    · obtain ⟨v, hv⟩ := ih (fun d hd => h d (by simp [hd])) (i + 1)
      exact ⟨_, by rw [wsum, hcrc, hv]⟩

theorem neg_mod_cancel (v : Nat) : (v + ((-(v : Int)) % 34).toNat) % 34 = 0 := by
  omega

theorem country_facts (c : String) (h : c ∈ macPro71Data.country_codes) :
    c.data.length = 3 ∧ (∀ ch ∈ c.data, (base34Idx ch).isSome = true) := by
  fin_cases h <;> exact ⟨rfl, by decide⟩

theorem model_code_len (mc : String) (h : mc ∈ macPro71Data.model_codes) :
    mc.data.length = 4 := by
  fin_cases h <;> rfl

theorem block1_facts (b : String) (h : b ∈ MLB_BLOCK1) :
    b.data.length = 3 ∧ (∀ ch ∈ b.data, (base34Idx ch).isSome = true) := by
  fin_cases h <;> exact ⟨rfl, by decide⟩

theorem block2_facts (b : String) (h : b ∈ MLB_BLOCK2) :
    b.data.length = 2 ∧ (∀ ch ∈ b.data, (base34Idx ch).isSome = true) := by
  obtain ⟨c, hc, rfl⟩ := List.mem_map.mp h
  refine ⟨rfl, ?_⟩
  intro ch hch
  have hd : ch = 'Q' ∨ ch = c := by simpa using hch
  rcases hd with rfl | rfl
  · decide
  · exact base34_all_indexable _ hc

theorem build_apple_serial_spec (mfg : MfgData) (hm : MfgValid macPro71Data mfg) :
    ∃ serial, build_apple_serial mfg = some serial ∧
      serial.data.length = 12 ∧
      serial.data.take 3 = mfg.country.data ∧
      (∃ yc, serial.data.get? 3 = some yc ∧ yc ∈ YEAR_CHARS.data) ∧
      (∃ wc j, serial.data.get? 4 = some wc ∧ base34Idx wc = some j ∧ 1 ≤ j ∧ j ≤ 26) := by
  obtain ⟨hc, hylo, hyhi, hw1, hw2, hline, hmc⟩ := hm
  obtain ⟨hclen, _⟩ := country_facts _ hc
  have hmclen := model_code_len _ hmc
  obtain ⟨yc, wc, j, henc, hycm, hwidx, hj1, hj2⟩ :=
    encode_year_week_spec mfg.year mfg.week hw1 hw2
  obtain ⟨line3, hline3, hlen3⟩ := encode_line_spec mfg.line hline
  refine ⟨mfg.country ++ String.mk [yc] ++ String.mk [wc] ++ line3 ++ mfg.model_code,
    by simp only [build_apple_serial, henc, hline3], ?_, ?_, ?_, ?_⟩
  · simp [data_append, hclen, hlen3, hmclen]
  · simp [data_append, List.append_assoc,
      List.take_append_of_le_length (by omega : 3 ≤ mfg.country.data.length),
      List.take_of_length_le hclen.le]
  · refine ⟨yc, ?_, hycm⟩
    rw [show (mfg.country ++ String.mk [yc] ++ String.mk [wc] ++ line3 ++ mfg.model_code).data
        = mfg.country.data ++ (yc :: wc :: (line3.data ++ mfg.model_code.data)) from by
      simp [data_append, List.append_assoc]]
    rw [List.get?_append_right (by omega), hclen]
    rfl
  · refine ⟨wc, j, ?_, hwidx, hj1, hj2⟩
    rw [show (mfg.country ++ String.mk [yc] ++ String.mk [wc] ++ line3 ++ mfg.model_code).data
        = mfg.country.data ++ (yc :: wc :: (line3.data ++ mfg.model_code.data)) from by
      simp [data_append, List.append_assoc]]
    rw [List.get?_append_right (by omega), hclen]
    rfl

theorem build_apple_mlb_spec (mfg : MfgData) (board block1 block2 : String)
    (hm : MfgValid macPro71Data mfg)
    (hboard : board ∈ macPro71Data.board_codes)
    (hb1 : block1 ∈ MLB_BLOCK1) (hb2 : block2 ∈ MLB_BLOCK2) :
    ∃ mlb, build_apple_mlb mfg "MacPro7,1" board block1 block2 = some mlb ∧
      verify_mlb_checksum mlb = some true ∧
      mlb.data.length = 17 ∧ mlb.data.take 3 = mfg.country.data := by
  obtain ⟨hc, hylo, hyhi, hw1, hw2, hline, hmc⟩ := hm
  obtain ⟨hclen, hcidx⟩ := country_facts _ hc
  obtain ⟨hb1len, hb1idx⟩ := block1_facts _ hb1
  obtain ⟨hb2len, hb2idx⟩ := block2_facts _ hb2
  have hbd : board = "K3F7" := by simpa [macPro71Data] using hboard
  subst hbd
  set pfx := mfg.country ++ digitStr (mfg.year % 10) ++ pad2 mfg.week ++
      block1 ++ block2 ++ "K3F7" with hpfx
  have hpdata : pfx.data = mfg.country.data ++
      ([Nat.digitChar (mfg.year % 10)] ++
       ([Nat.digitChar (mfg.week / 10), Nat.digitChar (mfg.week % 10)] ++
        (block1.data ++ (block2.data ++ "K3F7".data)))) := by
    simp [hpfx, data_append, digitStr, pad2, List.append_assoc]
  have hplen : pfx.data.length = 15 := by
    simp [hpdata, List.length_append, hclen, hb1len, hb2len]
  have hall : ∀ ch ∈ pfx.data, (base34Idx ch).isSome = true := by
    intro ch hch
    rw [hpdata] at hch
    simp only [List.mem_append, List.mem_cons, List.mem_singleton,
      List.not_mem_nil, or_false] at hch
    rcases hch with hch | hch | hch | hch | hch | hch
    · exact hcidx ch hch
    · subst hch
      rw [digitChar_base34 _ (Nat.mod_lt _ (by omega))]; rfl
    · rcases hch with rfl | rfl
      · rw [digitChar_base34 _ (by omega)]; rfl
      · rw [digitChar_base34 _ (Nat.mod_lt _ (by omega))]; rfl
    · exact hb1idx ch hch
    · exact hb2idx ch hch
    · rcases hch with rfl | rfl | rfl | rfl <;> decide
  obtain ⟨v, hv⟩ := wsum_isSome (17 % 2) pfx.data hall 0
  set j16 : Nat := ((-(v : Int)) % 34).toNat with hj16def
  have hj16 : j16 < 34 := by omega
  obtain ⟨c16, hc16get, hc16idx⟩ := base34_roundtrip _ hj16
  have hmlbdata : (pfx ++ String.mk ['0', c16]).data = pfx.data ++ ['0', c16] := by
    simp [data_append]
  refine ⟨pfx ++ String.mk ['0', c16], ?_, ?_, ?_, ?_⟩
  · simp only [build_apple_mlb,
      show dictGet "MacPro7,1" APPLE_PLATFORM_DATA = some macPro71Data from by
        simp [dictGet, APPLE_PLATFORM_DATA]]
    rw [← hpfx, hv]
    simp only [← hj16def, hc16get]
  · have hlen17 : strLen (pfx ++ String.mk ['0', c16]) = 17 := by
      simp [strLen, hmlbdata, List.length_append, hplen]
    have h0 : base34Idx '0' = some 0 := by decide
    have hw15 : mlbWeight (17 % 2) 15 = 3 := by decide
    have hw16 : mlbWeight (17 % 2) 16 = 1 := by decide
    have htail : wsum (17 % 2) ['0', c16] 15 = some j16 := by
      simp [wsum, h0, hc16idx, hw15, hw16]
    unfold verify_mlb_checksum
    rw [hlen17, hmlbdata, wsum_append, hv]
    simp only [Option.bind_some, hplen, Nat.zero_add, htail, Option.map_some]
    simp [neg_mod_cancel v]
  · simp [hmlbdata, List.length_append, hplen]
  · rw [hmlbdata, hpdata]
    simp [List.append_assoc,
      List.take_append_of_le_length (by omega : 3 ≤ mfg.country.data.length),
      List.take_of_length_le hclen.le]

theorem hex_ne_colon (n : Nat) : hexDigitU n ≠ ':' := by
  unfold hexDigitU strGet
  rcases h : "0123456789ABCDEF".data.get? n with _ | c
  · decide
  · have hm : c ∈ "0123456789ABCDEF".data := List.get?_mem h
    have hall : ∀ x ∈ "0123456789ABCDEF".data, x ≠ ':' := by decide
    simpa using hall c hm

theorem removeColons_mac (r0 b1 b2 b3 b4 b5 : Nat) :
    (removeColons (generate_mac r0 [b1, b2, b3, b4, b5])).data =
      [hexDigitU (((r0 ||| 2) &&& 254) / 16), hexDigitU (((r0 ||| 2) &&& 254) % 16),
       hexDigitU (b1 / 16), hexDigitU (b1 % 16), hexDigitU (b2 / 16), hexDigitU (b2 % 16),
       hexDigitU (b3 / 16), hexDigitU (b3 % 16), hexDigitU (b4 / 16), hexDigitU (b4 % 16),
       hexDigitU (b5 / 16), hexDigitU (b5 % 16)] := by
  simp [removeColons, generate_mac, joinColon, hex2, data_append,
    List.filter_cons, hex_ne_colon]

theorem generate_rom_eq (r0 : Nat) (rest : List Nat) (h : rest.length = 5) :
    generate_rom_from_mac (generate_mac r0 rest) =
      asciiUpper (removeColons (generate_mac r0 rest)) := by
  obtain ⟨b1, b2, b3, b4, b5, rfl⟩ : ∃ a b c d e, rest = [a, b, c, d, e] := by
    match rest, h with
    | [a, b, c, d, e], _ => exact ⟨a, b, c, d, e, rfl⟩
  unfold generate_rom_from_mac
  congr 1
  have h2 : removeColons (generate_mac r0 [b1, b2, b3, b4, b5]) = String.mk
      [hexDigitU (((r0 ||| 2) &&& 254) / 16), hexDigitU (((r0 ||| 2) &&& 254) % 16),
       hexDigitU (b1 / 16), hexDigitU (b1 % 16), hexDigitU (b2 / 16), hexDigitU (b2 % 16),
       hexDigitU (b3 / 16), hexDigitU (b3 % 16), hexDigitU (b4 / 16), hexDigitU (b4 % 16),
       hexDigitU (b5 / 16), hexDigitU (b5 % 16)] := by
    calc removeColons (generate_mac r0 [b1, b2, b3, b4, b5])
        = String.mk (removeColons (generate_mac r0 [b1, b2, b3, b4, b5])).data := rfl
      _ = _ := by rw [removeColons_mac]
  rw [h2]
  rfl

theorem model_for_macos_eq (macos : String) : model_for_macos macos = "MacPro7,1" := by
  unfold model_for_macos SMBIOS_MODELS DEFAULT_SMBIOS_MODEL
  simp only [dictGet]
  split_ifs <;> rfl

/-- C1: every Apple-services `SmbiosIdentity` produced by `generate_smbios`
satisfies the checksum/format invariants: the MLB verifies under
`_verify_mlb_checksum`, the serial has 12 characters and the MLB 17, serial
and MLB share their 3-character country prefix, `serial[3]` is one of
`_YEAR_CHARS`, the base-34 index of `serial[4]` lies in `1..26`, and the ROM
equals the MAC with colons removed, upper-cased. -/
theorem generate_smbios_apple_invariants
    (macos : String) (r : SmbiosRand) (hr : SmbiosRandValid r) :
    ∃ idn, generate_smbios macos true r = some idn ∧
      verify_mlb_checksum idn.mlb = some true ∧
      strLen idn.serial = 12 ∧ strLen idn.mlb = 17 ∧
      strTake idn.serial 3 = strTake idn.mlb 3 ∧
      (∃ yc, strGet idn.serial 3 = some yc ∧ yc ∈ YEAR_CHARS.data) ∧
      (∃ wc j, strGet idn.serial 4 = some wc ∧ base34Idx wc = some j ∧ 1 ≤ j ∧ j ≤ 26) ∧
      idn.rom = asciiUpper (removeColons idn.mac) := by
  obtain ⟨hmfg, hboard, hb1, hb2, hr0, hrestlen, hrestb⟩ := hr
  obtain ⟨serial, hser, hserlen, hsertake, hyc, hwc⟩ := build_apple_serial_spec r.mfg hmfg
  obtain ⟨mlb, hmlb, hver, hmlblen, hmlbtake⟩ :=
    build_apple_mlb_spec r.mfg r.board r.block1 r.block2 hmfg hboard hb1 hb2
  refine ⟨{ serial := serial, mlb := mlb, uuid := r.uuidStr,
            rom := generate_rom_from_mac (generate_mac r.macR0 r.macRest),
            model := model_for_macos macos,
            mac := generate_mac r.macR0 r.macRest }, ?_, hver, hserlen, hmlblen, ?_,
          hyc, hwc, generate_rom_eq r.macR0 r.macRest hrestlen⟩
  · unfold generate_smbios
    rw [if_pos rfl, model_for_macos_eq, hser, hmlb]
  · unfold strTake
    rw [hsertake, hmlbtake]

/-- A concrete draw used to instantiate the C1 theorem. -/
def c1WitnessRand : SmbiosRand :=
  { mfg := { country := "C02", year := 2019, week := 30, line := 123, model_code := "P7QM" },
    board := "K3F7", block1 := "600", block2 := "Q7",
    macR0 := 171, macRest := [1, 2, 3, 250, 255],
    uuidStr := "92A1B2C3-D4E5-F607-1829-3A4B5C6D7E8F",
    randSerial := "", randMlb := "", randRom := "" }

/-- Witness for C1 at a concrete random draw. -/
theorem generate_smbios_apple_invariants_witness :
    SmbiosRandValid c1WitnessRand ∧
    ∃ idn, generate_smbios "sequoia" true c1WitnessRand = some idn ∧
      verify_mlb_checksum idn.mlb = some true ∧
      strLen idn.serial = 12 ∧ strLen idn.mlb = 17 ∧
      strTake idn.serial 3 = strTake idn.mlb 3 ∧
      (∃ yc, strGet idn.serial 3 = some yc ∧ yc ∈ YEAR_CHARS.data) ∧
      (∃ wc j, strGet idn.serial 4 = some wc ∧ base34Idx wc = some j ∧ 1 ≤ j ∧ j ≤ 26) ∧
      idn.rom = asciiUpper (removeColons idn.mac) := by
  have hW : SmbiosRandValid c1WitnessRand := by
    unfold SmbiosRandValid MfgValid c1WitnessRand macPro71Data MLB_BLOCK1 MLB_BLOCK2
    decide
  exact ⟨hW, generate_smbios_apple_invariants "sequoia" c1WitnessRand hW⟩

/-! ## domain.py -/

/-- Metadata of a supported release — values of `domain.SUPPORTED_MACOS`. -/
structure MacosMeta where
  label : String
  major : Nat
  channel : String
deriving DecidableEq

/-- `domain.SUPPORTED_MACOS`. -/
def SUPPORTED_MACOS : List (String × MacosMeta) :=
  [("ventura", { label := "macOS Ventura 13", major := 13, channel := "stable" }),
   ("sonoma", { label := "macOS Sonoma 14", major := 14, channel := "stable" }),
   ("sequoia", { label := "macOS Sequoia 15", major := 15, channel := "stable" }),
   ("tahoe", { label := "macOS Tahoe 26", major := 26, channel := "stable" })]

/-- `domain.VmConfig`. -/
structure VmConfig where
  vmid : Int
  name : String
  macos : String
  cores : Int
  memory_mb : Int
  disk_gb : Int
  bridge : String
  storage : String
  installer_path : String := ""
  smbios_serial : String := ""
  smbios_uuid : String := ""
  smbios_mlb : String := ""
  smbios_rom : String := ""
  smbios_model : String := ""
  no_smbios : Bool := false
  apple_services : Bool := false
  vmgenid : String := ""
  static_mac : String := ""
  verbose_boot : Bool := false
  iso_dir : String := ""
  cpu_model : String := ""
deriving DecidableEq

def isAsciiAlphanum (c : Char) : Bool := c.isAlpha || c.isDigit

def isUpperAlnum (c : Char) : Bool := c.isDigit || ('A' ≤ c && c ≤ 'Z')

def isUpperHex (c : Char) : Bool := c.isDigit || ('A' ≤ c && c ≤ 'F')

/-- `re.fullmatch` of `[a-zA-Z0-9][a-zA-Z0-9.\x2d]*`. -/
def matchName (s : String) : Bool :=
  match s.data with
  | [] => false
  | c :: rest => isAsciiAlphanum c &&
      rest.all (fun d => isAsciiAlphanum d || d = '.' || d = '-')

/-- `re.fullmatch` of `vmbr[0-9]+`. -/
def matchBridge (s : String) : Bool :=
  match s.data with
  | 'v' :: 'm' :: 'b' :: 'r' :: rest => !rest.isEmpty && rest.all Char.isDigit
  | _ => false

/-- `re.fullmatch` of `[a-zA-Z0-9/._\x2d]+`. -/
def matchInstallerPath (s : String) : Bool :=
  !s.data.isEmpty &&
    s.data.all (fun c => isAsciiAlphanum c || c = '/' || c = '.' || c = '_' || c = '-')

/-- `re.fullmatch` of `[A-Z0-9]{12}` (resp. other lengths). -/
def matchUpperAlnumLen (n : Nat) (s : String) : Bool :=
  s.data.length = n && s.data.all isUpperAlnum

/-- `re.fullmatch` of `[A-F0-9]{12}`. -/
def matchRom (s : String) : Bool :=
  s.data.length = 12 && s.data.all isUpperHex

/-- `re.fullmatch` of the upper-case UUID pattern `8-4-4-4-12` hex groups. -/
def matchUuid (s : String) : Bool :=
  s.data.length = 36 &&
    s.data.enum.all (fun ic =>
      if ic.1 = 8 ∨ ic.1 = 13 ∨ ic.1 = 18 ∨ ic.1 = 23 then ic.2 = '-'
      else isUpperHex ic.2)

/-- `re.fullmatch` of `[A-Za-z0-9,]{1,20}`. -/
def matchModel (s : String) : Bool :=
  1 ≤ s.data.length && s.data.length ≤ 20 &&
    s.data.all (fun c => isAsciiAlphanum c || c = ',')

/-- `re.fullmatch` of `[A-Za-z0-9\x2d]+`. -/
def matchCpuModel (s : String) : Bool :=
  !s.data.isEmpty && s.data.all (fun c => isAsciiAlphanum c || c = '-')

/-- `re.fullmatch` of `[a-zA-Z0-9_\x2d]+`. -/
def matchStorage (s : String) : Bool :=
  !s.data.isEmpty && s.data.all (fun c => isAsciiAlphanum c || c = '_' || c = '-')

/-- `re.fullmatch` of `([0-9A-F]{2}:){5}[0-9A-F]{2}`. -/
def matchMac (s : String) : Bool :=
  s.data.length = 17 &&
    s.data.enum.all (fun ic =>
      if ic.1 % 3 = 2 then ic.2 = ':' else isUpperHex ic.2)

/-- One conditional `issues.append(msg)` of `validate_config`. -/
def issueIf (b : Bool) (msg : String) : List String :=
  if b then [msg] else []

/-- `domain.validate_config`, with the appends in source order. -/
def validate_config (c : VmConfig) : List String :=
  issueIf (c.vmid < 100 || c.vmid > 999999)
    "VMID must be between 100 and 999999." ++
  issueIf (c.name = "" || strLen c.name < 3)
    "VM name must be at least 3 characters." ++
  issueIf (dictGet c.macos SUPPORTED_MACOS).isNone
    "macOS version must be one of: ventura, sonoma, sequoia, tahoe." ++
  issueIf (c.cores < 2)
    "At least 2 CPU cores are required." ++
  issueIf (c.memory_mb < 4096)
    "At least 4096 MB RAM is required." ++
  issueIf (c.disk_gb < 64)
    "At least 64 GB disk is required." ++
  issueIf (!matchBridge c.bridge)
    "Bridge must match vmbr<N> (e.g. vmbr0)." ++
  issueIf (c.name ≠ "" && !matchName c.name)
    "VM name must start with alphanumeric and contain only [a-zA-Z0-9.-]." ++
  issueIf (c.installer_path ≠ "" && !matchInstallerPath c.installer_path)
    "Installer path contains invalid characters." ++
  issueIf (c.storage = "")
    "Storage target is required." ++
  issueIf (c.smbios_serial ≠ "" && !matchUpperAlnumLen 12 c.smbios_serial)
    "SMBIOS serial must be exactly 12 chars [A-Z0-9]." ++
  issueIf (c.smbios_mlb ≠ "" && !matchUpperAlnumLen 17 c.smbios_mlb)
    "SMBIOS MLB must be exactly 17 chars [A-Z0-9]." ++
  issueIf (c.smbios_rom ≠ "" && !matchRom c.smbios_rom)
    "SMBIOS ROM must be exactly 12 hex chars [A-F0-9]." ++
  issueIf (c.smbios_uuid ≠ "" && !matchUuid c.smbios_uuid)
    "SMBIOS UUID must be a valid uppercase UUID." ++
  issueIf (c.smbios_model ≠ "" && !matchModel c.smbios_model)
    "SMBIOS model must be alphanumeric (e.g., MacPro7,1)." ++
  issueIf (c.cpu_model ≠ "" && !matchCpuModel c.cpu_model)
    "CPU model must be alphanumeric/hyphens only (e.g., Skylake-Server-IBRS)." ++
  issueIf (c.storage ≠ "" && !matchStorage c.storage)
    "Storage target must be alphanumeric, hyphens, underscores only." ++
  issueIf (c.static_mac ≠ "" && !matchMac c.static_mac)
    "Static MAC must be XX:XX:XX:XX:XX:XX format (uppercase hex)." ++
  issueIf (c.vmgenid ≠ "" && !matchUuid c.vmgenid)
    "vmgenid must be a valid uppercase UUID."

theorem mem_issueIf {msg m : String} {b : Bool} :
    msg ∈ issueIf b m ↔ b = true ∧ msg = m := by
  unfold issueIf; cases b <;> simp

/-- C7 counterexample: a config whose `cores` is 3 — not a power of two —
passes `validate_config` with no issues at all. -/
theorem validate_config_pow2_counterexample :
    validate_config { vmid := 901, name := "macos-test", macos := "sequoia", cores := 3,
                      memory_mb := 16384, disk_gb := 128, bridge := "vmbr0",
                      storage := "local-lvm" } = [] ∧
    ¬ (∃ k : Nat, (3 : Int) = 2 ^ k) := by
  refine ⟨by decide, ?_⟩
  rintro ⟨k, hk⟩
  match k, hk with
  | 0, hk => norm_num at hk
  | 1, hk => norm_num at hk
  | (n + 2), hk =>
    have h4 : (4 : Int) ≤ 2 ^ (n + 2) := by
      calc (4 : Int) = 2 ^ 2 := by norm_num
        _ ≤ 2 ^ (n + 2) := by
          apply pow_le_pow_right (by norm_num) (by omega)
    linarith

/-- C7 (amended): `validate_config` enforces only the lower bound on `cores`:
the cores issue is reported exactly when `cores < 2`; a non-power-of-two
value `≥ 2` contributes no issue. -/
theorem validate_config_cores_iff (c : VmConfig) :
    "At least 2 CPU cores are required." ∈ validate_config c ↔ c.cores < 2 := by
  unfold validate_config
  simp [mem_issueIf]

/-! ## defaults.py -/

/-- `defaults.CpuInfo` (host CPU identification). -/
structure CpuInfo where
  vendor : String
  model_name : String
  family : Nat
  model : Nat
  needs_emulated_cpu : Bool
deriving DecidableEq

/-- The `while p * 2 <= n: p *= 2` loop of `_round_down_power_of_2`; the
fuel argument bounds the doubling iterations (`n` is always enough). -/
def rdLoop : Nat → Nat → Nat → Nat
  | 0, p, _ => p
  | fuel + 1, p, n => if p * 2 ≤ n then rdLoop fuel (p * 2) n else p

/-- `defaults._round_down_power_of_2`. -/
def round_down_power_of_2 (n : Nat) : Nat := max 2 (rdLoop n 1 n)

/-- `defaults.detect_cpu_cores`; the host's `os.cpu_count()` result is the
explicit input (`none` models Python `None`; the `or 4` also catches 0). -/
def detect_cpu_cores (osCpuCount : Option Nat) : Nat :=
  let count := match osCpuCount with
    | none => 4
    | some n => if n = 0 then 4 else n
  let half := max 2 (min 16 (if 8 ≤ count then count / 2 else count))
  round_down_power_of_2 half

theorem rdLoop_spec (fuel : Nat) : ∀ p n : Nat, 0 < p → p ≤ n → n < p * 2 ^ fuel →
    rdLoop fuel p n ≤ n ∧ n < 2 * rdLoop fuel p n ∧ ∃ k, rdLoop fuel p n = p * 2 ^ k := by
  induction fuel with
  | zero =>
    intro p n hp hpn hfuel
    simp [pow_zero] at hfuel
    omega
  | succ f ih =>
    intro p n hp hpn hfuel
    rw [rdLoop]
    by_cases h : p * 2 ≤ n
    · rw [if_pos h]
      have hfuel' : n < p * 2 * 2 ^ f := by
        rw [pow_succ] at hfuel
        calc n < p * (2 ^ f * 2) := hfuel
          _ = p * 2 * 2 ^ f := by ring
      obtain ⟨h1, h2, k, hk⟩ := ih (p * 2) n (by omega) h hfuel'
      exact ⟨h1, h2, k + 1, by rw [hk]; ring⟩
    · rw [if_neg h]
      exact ⟨hpn, by omega, 0, by ring⟩

theorem round_down_power_of_2_spec (n : Nat) (hn : 2 ≤ n) :
    round_down_power_of_2 n = 2 ^ Nat.log2 n := by
  have hfuel : n < 1 * 2 ^ n := by simpa using Nat.lt_two_pow n
  obtain ⟨h1, h2, k, hk⟩ := rdLoop_spec n 1 n one_pos (by omega) hfuel
  rw [one_mul] at hk
  have hle : 2 ^ k ≤ n := hk ▸ h1
  have hlt : n < 2 ^ (k + 1) := by
    rw [pow_succ]
    calc n < 2 * rdLoop n 1 n := h2
      _ = 2 ^ k * 2 := by rw [hk]; ring
  have hk1 : 1 ≤ k := by
    by_contra hcon
    interval_cases k
    · simp at hle hlt; omega
  have hkeq : Nat.log2 n = k := by
    rw [Nat.log2_eq_log_two]
    exact Nat.log_eq_of_pow_le_of_lt_pow hle hlt
  unfold round_down_power_of_2
  rw [hk, hkeq]
  have : 2 ≤ 2 ^ k := by
    calc 2 = 2 ^ 1 := (pow_one 2).symm
      _ ≤ 2 ^ k := Nat.pow_le_pow_right (by omega) hk1
  omega

/-- C9: for a host whose OS reports `N ≥ 1` cores, `detect_cpu_cores`
returns `max(2, min(16, N / 2 if N ≥ 8 else N))` rounded down to the
largest power of two below it; the result is always `≥ 2` and a power
of two. -/
theorem detect_cpu_cores_spec (N : Nat) (hN : 1 ≤ N) :
    detect_cpu_cores (some N) =
      2 ^ Nat.log2 (max 2 (min 16 (if 8 ≤ N then N / 2 else N))) ∧
    2 ≤ detect_cpu_cores (some N) ∧
    (∃ k, detect_cpu_cores (some N) = 2 ^ k) := by
  have heq : detect_cpu_cores (some N) =
      round_down_power_of_2 (max 2 (min 16 (if 8 ≤ N then N / 2 else N))) := by
    show round_down_power_of_2 (max 2 (min 16
      (if 8 ≤ (if N = 0 then 4 else N) then (if N = 0 then 4 else N) / 2
       else (if N = 0 then 4 else N)))) = _
    rw [if_neg (by omega : ¬ N = 0)]
  have hh2 : 2 ≤ max 2 (min 16 (if 8 ≤ N then N / 2 else N)) := le_max_left _ _
  rw [heq, round_down_power_of_2_spec _ hh2]
  refine ⟨rfl, ?_, ⟨_, rfl⟩⟩
  have hpos : 0 < Nat.log 2 (max 2 (min 16 (if 8 ≤ N then N / 2 else N))) :=
    Nat.log_pos (by omega) hh2
  rw [Nat.log2_eq_log_two]
  calc 2 = 2 ^ 1 := (pow_one 2).symm
    _ ≤ 2 ^ Nat.log 2 (max 2 (min 16 (if 8 ≤ N then N / 2 else N))) :=
        Nat.pow_le_pow_right (by omega) (by omega)

/-- Witness for C9 at `N = 12` (result `4 = 2 ^ 2`). -/
theorem detect_cpu_cores_spec_witness :
    (1 ≤ 12 ∧
      detect_cpu_cores (some 12) =
        2 ^ Nat.log2 (max 2 (min 16 (if 8 ≤ 12 then 12 / 2 else 12))) ∧
      2 ≤ detect_cpu_cores (some 12) ∧
      (∃ k, detect_cpu_cores (some 12) = 2 ^ k)) ∧
    detect_cpu_cores (some 12) = 4 :=
  ⟨⟨by decide, detect_cpu_cores_spec 12 (by decide)⟩, by decide⟩

/-! ## planner.PlanStep and executor.py -/

/-- `planner.PlanStep`. -/
structure PlanStep where
  title : String
  argv : List String
  risk : String := "safe"
deriving DecidableEq

/-- `PlanStep.command`: the shell-joined argv. -/
def PlanStep.command (s : PlanStep) : String := shlexJoin s.argv

/-- Result of `infrastructure.ProxmoxAdapter.run`. -/
structure CmdResult where
  ok : Bool
  returncode : Int
  output : String
deriving DecidableEq

/-- `executor.StepResult`. -/
structure StepResult where
  title : String
  command : String
  ok : Bool
  returncode : Int
  output : String
deriving DecidableEq

/-- `executor.ApplyResult`, with two observations made explicit for the
embedding: the lines written to the log file (`log_path`'s content) and the
argvs actually routed through the adapter, in order. -/
structure ApplyOutcome where
  ok : Bool
  results : List StepResult
  logLines : List String
  invoked : List (List String)
deriving DecidableEq

/-- The per-step loop of `executor.apply_plan`.  The adapter is the function
`run`; callbacks are observationally irrelevant and omitted. -/
def applyLoop (execute : Bool) (run : List String → CmdResult) :
    List PlanStep → ApplyOutcome
  | [] => { ok := true, results := [], logLines := [], invoked := [] }
  | s :: rest =>
    if execute then
      let cr := run s.argv
      let r : StepResult := { title := s.title, command := s.command, ok := cr.ok,
                              returncode := cr.returncode, output := cr.output }
      let line := "## " ++ s.title ++ "\n$ " ++ s.command ++ "\n" ++ cr.output ++ "\n"
      if cr.ok then
        let tail := applyLoop execute run rest
        { ok := tail.ok, results := r :: tail.results,
          logLines := line :: tail.logLines, invoked := s.argv :: tail.invoked }
      else
        { ok := false, results := [r], logLines := [line], invoked := [s.argv] }
    else
      let line := "[DRY-RUN] " ++ s.title ++ ": " ++ s.command ++ "\n"
      let r : StepResult := { title := s.title, command := s.command, ok := true,
                              returncode := 0,
                              output := "[DRY-RUN] " ++ s.title ++ ": " ++ s.command }
      let tail := applyLoop execute run rest
      { ok := tail.ok, results := r :: tail.results,
        logLines := line :: tail.logLines, invoked := tail.invoked }

/-- `executor.apply_plan` (the log-file header is the first written line). -/
def apply_plan (steps : List PlanStep) (execute : Bool)
    (run : List String → CmdResult) : ApplyOutcome :=
  let body := applyLoop execute run steps
  { body with logLines :=
      ("# apply_plan execute=" ++ (if execute then "True" else "False") ++ "\n")
        :: body.logLines }

theorem applyLoop_first_failure (run : List String → CmdResult) :
    ∀ (steps : List PlanStep) (k : Nat), 1 ≤ k → k ≤ steps.length →
    (∀ i, i < k - 1 → ∀ st, steps.get? i = some st → (run st.argv).ok = true) →
    (∀ st, steps.get? (k - 1) = some st → (run st.argv).ok = false) →
    (applyLoop true run steps).ok = false ∧
    (applyLoop true run steps).results.length = k ∧
    (applyLoop true run steps).invoked = (steps.take k).map PlanStep.argv := by
  intro steps
  induction steps with
  | nil => intro k hk1 hk2 _ _; simp at hk2; omega
  | cons s rest ih =>
    intro k hk1 hk2 hearlier hfail
    by_cases hone : k = 1
    · subst hone
      have hf : (run s.argv).ok = false := hfail s rfl
      simp only [applyLoop, if_pos rfl, hf]
      refine ⟨rfl, rfl, ?_⟩
      simp [List.take_succ_cons]
    · have hk2' : 2 ≤ k := by omega
      have hok : (run s.argv).ok = true := hearlier 0 (by omega) s rfl
      have hk2r : k - 1 ≤ rest.length := by
        simp only [List.length_cons] at hk2; omega
      have hrest := ih (k - 1) (by omega) hk2r
        (fun i hi st hst => hearlier (i + 1) (by omega) st (by simpa using hst))
        (fun st hst => hfail st (by
          have : (s :: rest).get? (k - 1) = rest.get? (k - 2) := by
            have hk3 : k - 1 = (k - 2) + 1 := by omega
            rw [hk3]; rfl
          rw [this]; exact hst))
      simp only [applyLoop, if_pos rfl, hok, if_pos rfl]
      obtain ⟨h1, h2, h3⟩ := hrest
      refine ⟨h1, ?_, ?_⟩
      · simp [h2]; omega
      · have hkt : k = (k - 1) + 1 := by omega
        rw [hkt, List.take_succ_cons]
        simp [h3]

/-- C3: with `execute=True`, if the adapter succeeds on the first `k-1`
steps and fails on the `k`-th (1-based), `apply_plan` returns `ok = false`
with exactly `k` step results, and only the first `k` argvs ever reach the
adapter. -/
theorem apply_plan_stops_at_first_failure
    (steps : List PlanStep) (run : List String → CmdResult) (k : Nat)
    (hk1 : 1 ≤ k) (hk2 : k ≤ steps.length)
    (hearlier : ∀ i, i < k - 1 → ∀ st, steps.get? i = some st → (run st.argv).ok = true)
    (hfail : ∀ st, steps.get? (k - 1) = some st → (run st.argv).ok = false) :
    (apply_plan steps true run).ok = false ∧
    (apply_plan steps true run).results.length = k ∧
    (apply_plan steps true run).invoked = (steps.take k).map PlanStep.argv := by
  have h := applyLoop_first_failure run steps k hk1 hk2 hearlier hfail
  unfold apply_plan
  exact h

/-- Witness for C3: a three-step plan whose second step fails; two results,
two adapter invocations, `ok = false`. -/
theorem apply_plan_stops_at_first_failure_witness :
    (1 ≤ 2 ∧ 2 ≤ ([{ title := "a", argv := ["qm", "ok1"] },
                    { title := "b", argv := ["qm", "bad"] },
                    { title := "c", argv := ["qm", "ok3"] }] : List PlanStep).length) ∧
    ((apply_plan [{ title := "a", argv := ["qm", "ok1"] },
                  { title := "b", argv := ["qm", "bad"] },
                  { title := "c", argv := ["qm", "ok3"] }] true
        (fun argv => if argv = ["qm", "bad"]
          then { ok := false, returncode := 1, output := "boom" }
          else { ok := true, returncode := 0, output := "fine" })).ok = false ∧
     (apply_plan [{ title := "a", argv := ["qm", "ok1"] },
                  { title := "b", argv := ["qm", "bad"] },
                  { title := "c", argv := ["qm", "ok3"] }] true
        (fun argv => if argv = ["qm", "bad"]
          then { ok := false, returncode := 1, output := "boom" }
          else { ok := true, returncode := 0, output := "fine" })).results.length = 2 ∧
     (apply_plan [{ title := "a", argv := ["qm", "ok1"] },
                  { title := "b", argv := ["qm", "bad"] },
                  { title := "c", argv := ["qm", "ok3"] }] true
        (fun argv => if argv = ["qm", "bad"]
          then { ok := false, returncode := 1, output := "boom" }
          else { ok := true, returncode := 0, output := "fine" })).invoked =
       (([{ title := "a", argv := ["qm", "ok1"] },
          { title := "b", argv := ["qm", "bad"] },
          { title := "c", argv := ["qm", "ok3"] }] : List PlanStep).take 2).map
         PlanStep.argv) :=
  ⟨⟨by decide, by decide⟩,
   apply_plan_stops_at_first_failure _ _ 2 (by decide) (by decide)
     (by intro i hi st hst
         interval_cases i
         · simp at hst
           subst hst
           decide)
     (by intro st hst
         simp at hst
         subst hst
         decide)⟩

/-! ## downloader.py

Filesystem state is a flat association of path to content; one
`_do_download` call is an `Attempt` (success streams the full payload into
the `.part` file, failure leaves whatever was written before the error).
Network endpoints that the claims do not inspect are oracle parameters:
state transformers the theorems quantify over. -/

/-- Flat filesystem model. -/
structure FS where
  files : List (String × String)
deriving DecidableEq

def fsGet (fs : FS) (p : String) : Option String := dictGet p fs.files

def fsExists (fs : FS) (p : String) : Bool := (fsGet fs p).isSome

def fsWrite (fs : FS) (p : String) (content : String) : FS :=
  { files := (p, content) :: fs.files }

def fsRemove (fs : FS) (p : String) : FS :=
  { files := fs.files.filter (fun kv => kv.1 ≠ p) }

/-- `Path.rename`: move the content of `src` to `dst`. -/
def fsRename (fs : FS) (src dst : String) : FS :=
  match fsGet fs src with
  | none => fs
  | some c => fsWrite (fsRemove fs src) dst c

/-- Outcome of one `_do_download` into the `.part` file. -/
inductive Attempt where
  | success (bytes : String)
  | failure (written : Option String)
deriving DecidableEq

/-- `downloader._MAX_RETRIES`. -/
def MAX_RETRIES : Nat := 3

/-- The retry loop of `_download_file`: `remaining` attempts left, `idx` the
current attempt number.  A successful attempt streams the payload into
`part` and renames it onto `dest`; a failed attempt deletes `part` when it
exists and retries (the `time.sleep` backoff has no state effect). -/
def dlLoop (outcome : Nat → Attempt) (dest part : String) :
    Nat → Nat → FS → Except String Unit × FS
  | 0, _, fs => (.error ("Download failed after " ++ Nat.repr MAX_RETRIES ++ " attempts"), fs)
  | r + 1, idx, fs =>
    match outcome idx with
    | .success bytes =>
        let fs1 := fsWrite fs part bytes
        (.ok (), fsRename fs1 part dest)
    | .failure w =>
        let fs1 := match w with
          | some b => fsWrite fs part b
          | none => fs
        let fs2 := if fsExists fs1 part then fsRemove fs1 part else fs1
        dlLoop outcome dest part r (idx + 1) fs2

/-- `downloader._download_file` (the URL and progress callback have no
filesystem effect; success/failure of each attempt is `outcome`). -/
def download_file (outcome : Nat → Attempt) (dest : String) (fs : FS) :
    Except String Unit × FS :=
  dlLoop outcome dest (dest ++ ".part") MAX_RETRIES 0 fs

/-- Payload of the first successful attempt among `r` tries starting at `idx`. -/
def firstSuccessIn (outcome : Nat → Attempt) : Nat → Nat → Option String
  | 0, _ => none
  | r + 1, idx =>
    match outcome idx with
    | .success b => some b
    | .failure _ => firstSuccessIn outcome r (idx + 1)

theorem fsGet_fsWrite_self (fs : FS) (p c : String) :
    fsGet (fsWrite fs p c) p = some c := by
  simp [fsGet, fsWrite, dictGet]

theorem fsGet_fsWrite_other (fs : FS) (p q c : String) (h : q ≠ p) :
    fsGet (fsWrite fs p c) q = fsGet fs q := by
  simp [fsGet, fsWrite, dictGet, h]

theorem fsGet_fsRemove_self (fs : FS) (p : String) :
    fsGet (fsRemove fs p) p = none := by
  rcases fs with ⟨files⟩
  induction files with
  | nil => rfl
  | cons kv rest ih =>
    by_cases h : kv.1 = p
    · simpa [fsGet, fsRemove, h] using ih
    · simpa [fsGet, fsRemove, dictGet, h, Ne.symm h] using ih

theorem fsGet_fsRemove_other (fs : FS) (p q : String) (h : q ≠ p) :
    fsGet (fsRemove fs p) q = fsGet fs q := by
  rcases fs with ⟨files⟩
  induction files with
  | nil => rfl
  | cons kv rest ih =>
    by_cases hk : kv.1 = p
    · subst hk
      simpa [fsGet, fsRemove, dictGet, h] using ih
    · by_cases hq : q = kv.1
      · simp [fsGet, fsRemove, dictGet, hk, hq]
      · simpa [fsGet, fsRemove, dictGet, hk, hq] using ih

theorem part_path_ne (s : String) : s ++ ".part" ≠ s := by
  intro h
  have := congrArg (fun t => t.data.length) h
  simp [data_append] at this

theorem cleanup_spec (fs1 : FS) (dest part : String) (hne : part ≠ dest)
    (hdest1 : fsExists fs1 dest = false) :
    fsExists (if fsExists fs1 part then fsRemove fs1 part else fs1) dest = false ∧
    fsExists (if fsExists fs1 part then fsRemove fs1 part else fs1) part = false := by
  by_cases hx : fsExists fs1 part = true
  · rw [if_pos hx]
    constructor
    · show (fsGet (fsRemove fs1 part) dest).isSome = false
      rw [fsGet_fsRemove_other fs1 part dest (Ne.symm hne)]
      exact hdest1
    · show (fsGet (fsRemove fs1 part) part).isSome = false
      rw [fsGet_fsRemove_self]
      rfl
  · rw [if_neg hx]
    exact ⟨hdest1, by simpa using hx⟩

theorem dlLoop_atomic (outcome : Nat → Attempt) (dest part : String) (hne : part ≠ dest) :
    ∀ (r idx : Nat) (fs : FS), fsExists fs dest = false →
    (r = 0 → fsExists fs part = false) →
    ((dlLoop outcome dest part r idx fs).1 = Except.ok () →
       ∃ b, firstSuccessIn outcome r idx = some b ∧
         fsGet (dlLoop outcome dest part r idx fs).2 dest = some b ∧
         fsExists (dlLoop outcome dest part r idx fs).2 part = false) ∧
    (∀ e, (dlLoop outcome dest part r idx fs).1 = Except.error e →
       fsExists (dlLoop outcome dest part r idx fs).2 dest = false ∧
       fsExists (dlLoop outcome dest part r idx fs).2 part = false) := by
  intro r
  induction r with
  | zero =>
    intro idx fs hdest hpart
    refine ⟨fun hok => by simp [dlLoop] at hok, fun e _ => ?_⟩
    simp only [dlLoop]
    exact ⟨hdest, hpart rfl⟩
  | succ n ih =>
    intro idx fs hdest _
    cases hout : outcome idx with
    | success bytes =>
      have hren : fsRename (fsWrite fs part bytes) part dest =
          fsWrite (fsRemove (fsWrite fs part bytes) part) dest bytes := by
        unfold fsRename
        rw [fsGet_fsWrite_self]
      have hstep : dlLoop outcome dest part (n + 1) idx fs =
          (Except.ok (), fsRename (fsWrite fs part bytes) part dest) := by
        simp only [dlLoop, hout]
      rw [hstep, hren]
      constructor
      · intro _
        refine ⟨bytes, by simp [firstSuccessIn, hout], fsGet_fsWrite_self _ _ _, ?_⟩
        show (fsGet (fsWrite (fsRemove (fsWrite fs part bytes) part) dest bytes) part).isSome
          = false
        rw [fsGet_fsWrite_other _ _ _ _ hne, fsGet_fsRemove_self]
        rfl
      · intro e he
        simp at he
    | failure w =>
      have hfsucc : firstSuccessIn outcome (n + 1) idx = firstSuccessIn outcome n (idx + 1) := by
        simp [firstSuccessIn, hout]
      cases w with
      | none =>
        obtain ⟨hd2, hp2⟩ := cleanup_spec fs dest part hne hdest
        have hstep : dlLoop outcome dest part (n + 1) idx fs =
            dlLoop outcome dest part n (idx + 1)
              (if fsExists fs part then fsRemove fs part else fs) := by
          simp only [dlLoop, hout]
        rw [hstep, hfsucc]
        exact ih (idx + 1) _ hd2 (fun _ => hp2)
      | some b =>
        have hdest1 : fsExists (fsWrite fs part b) dest = false := by
          show (fsGet (fsWrite fs part b) dest).isSome = false
          rw [fsGet_fsWrite_other _ _ _ _ (Ne.symm hne)]
          exact hdest
        obtain ⟨hd2, hp2⟩ := cleanup_spec (fsWrite fs part b) dest part hne hdest1
        have hstep : dlLoop outcome dest part (n + 1) idx fs =
            dlLoop outcome dest part n (idx + 1)
              (if fsExists (fsWrite fs part b) part
               then fsRemove (fsWrite fs part b) part
               else fsWrite fs part b) := by
          simp only [dlLoop, hout]
        rw [hstep, hfsucc]
        exact ih (idx + 1) _ hd2 (fun _ => hp2)

/-- C4: the atomic download primitive is all-or-nothing.  When the
destination did not previously exist: a normal return leaves `dest` holding
the bytes of the (first) successful attempt with `<dest>.part` gone, and a
raise (all attempts failed) leaves neither `dest` nor `<dest>.part`. -/
theorem download_file_atomic (outcome : Nat → Attempt) (dest : String) (fs : FS)
    (hdest : fsExists fs dest = false) :
    ((download_file outcome dest fs).1 = Except.ok () →
       ∃ b, firstSuccessIn outcome MAX_RETRIES 0 = some b ∧
         fsGet (download_file outcome dest fs).2 dest = some b ∧
         fsExists (download_file outcome dest fs).2 (dest ++ ".part") = false) ∧
    (∀ e, (download_file outcome dest fs).1 = Except.error e →
       fsExists (download_file outcome dest fs).2 dest = false ∧
       fsExists (download_file outcome dest fs).2 (dest ++ ".part") = false) :=
  dlLoop_atomic outcome dest (dest ++ ".part") (part_path_ne dest)
    MAX_RETRIES 0 fs hdest (by intro h; exact absurd h (by decide))

/-- Witness for C4: first attempt fails, second succeeds with payload
`"DATA"`; the file lands at the destination and the partial file is gone. -/
theorem download_file_atomic_witness :
    fsExists { files := [] } "/tmp/x.img" = false ∧
    ((download_file (fun i => if i = 0 then Attempt.failure none
          else Attempt.success "DATA") "/tmp/x.img" { files := [] }).1 = Except.ok () →
       ∃ b, firstSuccessIn (fun i => if i = 0 then Attempt.failure none
              else Attempt.success "DATA") MAX_RETRIES 0 = some b ∧
         fsGet (download_file (fun i => if i = 0 then Attempt.failure none
              else Attempt.success "DATA") "/tmp/x.img" { files := [] }).2 "/tmp/x.img" = some b ∧
         fsExists (download_file (fun i => if i = 0 then Attempt.failure none
              else Attempt.success "DATA") "/tmp/x.img" { files := [] }).2
           ("/tmp/x.img" ++ ".part") = false) ∧
    (∀ e, (download_file (fun i => if i = 0 then Attempt.failure none
          else Attempt.success "DATA") "/tmp/x.img" { files := [] }).1 = Except.error e →
       fsExists (download_file (fun i => if i = 0 then Attempt.failure none
          else Attempt.success "DATA") "/tmp/x.img" { files := [] }).2 "/tmp/x.img" = false ∧
       fsExists (download_file (fun i => if i = 0 then Attempt.failure none
          else Attempt.success "DATA") "/tmp/x.img" { files := [] }).2
         ("/tmp/x.img" ++ ".part") = false) :=
  ⟨by decide,
   download_file_atomic (fun i => if i = 0 then Attempt.failure none
     else Attempt.success "DATA") "/tmp/x.img" { files := [] } (by decide)⟩

/-- Model of `pathlib`'s `dest_dir / name`. -/
def pathJoin (dir name : String) : String := dir ++ "/" ++ name

/-- Minimal release-object shape (`tag_name`, assets as name/url pairs). -/
structure Release where
  tag_name : String
  assets : List (String × String)
deriving DecidableEq

/-- `downloader._find_release_asset`: first asset whose name matches and
whose `browser_download_url` is non-empty. -/
def find_release_asset (r : Release) (asset_name : String) : Except String String :=
  match r.assets.find? (fun a => a.1 == asset_name && a.2 != "") with
  | some a => .ok a.2
  | none => .error ("Asset '" ++ asset_name ++ "' not found in release '" ++ r.tag_name ++ "'.")

/-- `downloader.download_opencore`.  The release-API call is the oracle
`fetchRelease` (a state transformer the claims quantify over); the
per-attempt download outcomes are `attempts` as in `download_file`. -/
def download_opencore (macos dest_dir : String)
    (fetchRelease : FS → Except String Release × FS)
    (attempts : Nat → Attempt) (fs : FS) : Except String String × FS :=
  let dest := pathJoin dest_dir ("opencore-" ++ macos ++ ".iso")
  if fsExists fs dest then (.ok dest, fs)
  else
    match fetchRelease fs with
    | (.error e, fs1) => (.error e, fs1)
    | (.ok release, fs1) =>
      match find_release_asset release ("opencore-" ++ macos ++ ".iso") with
      | .error e => (.error e, fs1)
      | .ok _url =>
        match download_file attempts dest fs1 with
        | (.ok _, fs2) => (.ok dest, fs2)
        | (.error e, fs2) => (.error e, fs2)

/-- `downloader.RECOVERY_BOARD_IDS`. -/
def RECOVERY_BOARD_IDS : List (String × String) :=
  [("sonoma", "Mac-827FAC58A8FDFA22"), ("sequoia", "Mac-27AD2F918AE68F61")]

/-- `downloader._download_tahoe_installer`.  Everything past the existence
check (catalog walk, XAR extraction, conversion) is the oracle `rest`. -/
def download_tahoe_installer (dest_dir : String)
    (rest : FS → Except String String × FS) (fs : FS) : Except String String × FS :=
  let dest := pathJoin dest_dir "tahoe-full-installer.img"
  if fsExists fs dest then (.ok dest, fs)
  else rest fs

/-- `downloader.download_recovery`: tahoe delegates to the installer flow;
a release without a board ID raises before anything else; otherwise the
existing destination short-circuits.  The osrecovery protocol, token
downloads and DMG conversion are the oracle `recoveryRest`. -/
def download_recovery (macos dest_dir : String)
    (tahoeRest recoveryRest : FS → Except String String × FS) (fs : FS) :
    Except String String × FS :=
  if macos = "tahoe" then download_tahoe_installer dest_dir tahoeRest fs
  else if (dictGet macos RECOVERY_BOARD_IDS).isNone then
    (.error ("No recovery board ID for '" ++ macos ++ "'."), fs)
  else
    let dest := pathJoin dest_dir (macos ++ "-recovery.img")
    if fsExists fs dest then (.ok dest, fs)
    else recoveryRest fs

/-- C10 counterexample: `download_recovery("ventura", …)` raises even though
`ventura-recovery.img` already exists in the destination directory — the
board-ID check precedes the existence check, so the claimed early return
never happens for ventura. -/
theorem download_recovery_ventura_counterexample :
    fsExists { files := [("/var/lib/vz/template/iso/ventura-recovery.img", "IMG")] }
      (pathJoin "/var/lib/vz/template/iso" ("ventura" ++ "-recovery.img")) = true ∧
    download_recovery "ventura" "/var/lib/vz/template/iso"
      (fun fs => (.error "unused", fs)) (fun fs => (.error "unused", fs))
      { files := [("/var/lib/vz/template/iso/ventura-recovery.img", "IMG")] } =
      (.error "No recovery board ID for 'ventura'.",
       { files := [("/var/lib/vz/template/iso/ventura-recovery.img", "IMG")] }) := by
  constructor
  · decide
  · rfl

/-- C10 (amended): the downloaders are idempotent wherever the existence
check is reached: `download_opencore` for every release name,
`_download_tahoe_installer` always, and `download_recovery` for `tahoe` and
for releases with a recovery board ID (sonoma, sequoia).  Each returns the
existing path with the state untouched — no oracle (network) transition is
applied and the file is unmodified.  For any other release name
`download_recovery` raises before checking the filesystem. -/
theorem download_idempotent_on_existing :
    (∀ (macos dest_dir : String) (fetchRelease : FS → Except String Release × FS)
       (attempts : Nat → Attempt) (fs : FS),
       fsExists fs (pathJoin dest_dir ("opencore-" ++ macos ++ ".iso")) = true →
       download_opencore macos dest_dir fetchRelease attempts fs =
         (.ok (pathJoin dest_dir ("opencore-" ++ macos ++ ".iso")), fs)) ∧
    (∀ (dest_dir : String) (rest : FS → Except String String × FS) (fs : FS),
       fsExists fs (pathJoin dest_dir "tahoe-full-installer.img") = true →
       download_tahoe_installer dest_dir rest fs =
         (.ok (pathJoin dest_dir "tahoe-full-installer.img"), fs)) ∧
    (∀ (macos dest_dir : String) (tr rr : FS → Except String String × FS) (fs : FS),
       macos ≠ "tahoe" → (dictGet macos RECOVERY_BOARD_IDS).isSome = true →
       fsExists fs (pathJoin dest_dir (macos ++ "-recovery.img")) = true →
       download_recovery macos dest_dir tr rr fs =
         (.ok (pathJoin dest_dir (macos ++ "-recovery.img")), fs)) ∧
    (∀ (dest_dir : String) (tr rr : FS → Except String String × FS) (fs : FS),
       fsExists fs (pathJoin dest_dir "tahoe-full-installer.img") = true →
       download_recovery "tahoe" dest_dir tr rr fs =
         (.ok (pathJoin dest_dir "tahoe-full-installer.img"), fs)) := by
  refine ⟨?_, ?_, ?_, ?_⟩
  · intro macos dest_dir fetchRelease attempts fs h
    unfold download_opencore
    rw [if_pos h]
  · intro dest_dir rest fs h
    unfold download_tahoe_installer
    rw [if_pos h]
  · intro macos dest_dir tr rr fs hmac hbid h
    unfold download_recovery
    have hnone : ¬ ((dictGet macos RECOVERY_BOARD_IDS).isNone = true) := by
      rcases Option.isSome_iff_exists.mp hbid with ⟨v, hv⟩
      simp [hv]
    rw [if_neg hmac, if_neg hnone]
    simp [h]
  · intro dest_dir tr rr fs h
    unfold download_recovery download_tahoe_installer
    simp [h]

/-- Witness for C10's amended theorem: an existing
`sequoia-recovery.img` is returned untouched by `download_recovery`. -/
theorem download_idempotent_on_existing_witness :
    (fsExists { files := [("/d/sequoia-recovery.img", "IMG")] }
       (pathJoin "/d" ("sequoia" ++ "-recovery.img")) = true) ∧
    download_recovery "sequoia" "/d"
      (fun fs => (.error "unused", fs)) (fun fs => (.error "unused", fs))
      { files := [("/d/sequoia-recovery.img", "IMG")] } =
      (.ok (pathJoin "/d" ("sequoia" ++ "-recovery.img")),
       { files := [("/d/sequoia-recovery.img", "IMG")] }) :=
  ⟨by decide,
   download_idempotent_on_existing.2.2.1 "sequoia" "/d"
     (fun fs => (.error "unused", fs)) (fun fs => (.error "unused", fs))
     { files := [("/d/sequoia-recovery.img", "IMG")] }
     (by decide) (by decide) (by decide)⟩

/-! ## assets.py

A search root is `none` when the directory does not exist, else the list of
its entries (name and whether the entry is a regular file).  All roots the
source scans share a fixed prefix per root, so candidate paths are
represented by their file names. -/

/-- A directory entry as seen by `root.iterdir()`. -/
structure FsEntry where
  name : String
  isFile : Bool
deriving DecidableEq

/-- `fnmatch.fnmatch` on POSIX for the patterns the source uses
(literals, `*` and `?`; no bracket classes appear in `assets.py`).
The fuel argument makes the recursion structural; every call shrinks
pattern-plus-string length, so `length p + length s + 1` never runs out. -/
def globMatchAux : Nat → List Char → List Char → Bool
  | 0, _, _ => false
  | _ + 1, [], [] => true
  | fuel + 1, '*' :: ps, [] => globMatchAux fuel ps []
  | _ + 1, _ :: _, [] => false
  | _ + 1, [], _ :: _ => false
  | fuel + 1, p :: ps, c :: cs =>
      if p = '*' then globMatchAux fuel ps (c :: cs) || globMatchAux fuel ('*' :: ps) cs
      else (p = '?' || p = c) && globMatchAux fuel ps cs

def globMatch (p s : List Char) : Bool :=
  globMatchAux (p.length + s.length + 1) p s

/-- Lexicographic code-point comparison — how `sorted` orders paths. -/
def charListLe : List Char → List Char → Bool
  | [], _ => true
  | _ :: _, [] => false
  | a :: as, b :: bs => if a = b then charListLe as bs else decide (a.val < b.val)

def strLeB (a b : String) : Bool := charListLe a.data b.data

def insertSorted (e : FsEntry) : List FsEntry → List FsEntry
  | [] => [e]
  | x :: xs => if strLeB e.name x.name then e :: x :: xs else x :: insertSorted e xs

/-- `sorted(root.iterdir())` (stable insertion sort on names). -/
def sortEntries : List FsEntry → List FsEntry
  | [] => []
  | x :: xs => insertSorted x (sortEntries xs)

/-- `assets._find_iso`: walk the roots in order; within an existing root,
return the first sorted regular file whose lower-cased name matches any of
the lower-cased patterns. -/
def find_iso (patterns : List String) (roots : List (Option (List FsEntry))) :
    Option String :=
  roots.findSome? (fun root =>
    match root with
    | none => none
    | some entries =>
        ((sortEntries entries).find? (fun cand =>
            cand.isFile &&
              (patterns.map asciiLower).any (fun pat =>
                globMatch pat.data (asciiLower cand.name).data))).map (fun e => e.name))

/-- `assets.resolve_opencore_path` (same pattern list, same fallback). -/
def resolve_opencore_path (macos : String) (roots : List (Option (List FsEntry))) :
    String :=
  match find_iso
      ["OpenCore-v21.iso", "opencore-v21.iso", "opencore-osx-proxmox-vm.iso",
       "opencore-" ++ macos ++ ".iso", "opencore*" ++ macos ++ "*.iso",
       "opencore*.iso"] roots with
  | some p => p
  | none => pathJoin "/var/lib/vz/template/iso" ("opencore-" ++ macos ++ ".iso")

/-- C8: in a root holding both the exact-name file `opencore-sequoia.iso`
and a glob-only stray `opencore-legacy.iso`, the resolver returns the
stray — `_find_iso` scans sorted candidates against the union of all
patterns, so alphabetical order, not pattern priority, decides. -/
theorem resolve_opencore_alphabetical_beats_exact :
    resolve_opencore_path "sequoia"
      [some [{ name := "opencore-sequoia.iso", isFile := true },
             { name := "opencore-legacy.iso", isFile := true }]] =
      "opencore-legacy.iso" ∧
    globMatch "opencore-sequoia.iso".data "opencore-sequoia.iso".data = true := by
  constructor
  · decide
  · decide

/-! ## planner.py -/

/-- `planner._cpu_args`. -/
def cpu_args (cpu : CpuInfo) (override : String) : String :=
  if override ≠ "" then
    "-cpu " ++ override ++ ",kvm=on,vendor=GenuineIntel,+invtsc,vmware-cpuid-freq=on"
  else if cpu.needs_emulated_cpu then
    "-cpu Cascadelake-Server,vendor=GenuineIntel,+invtsc,-pcid,-hle,-rtm," ++
    "-avx512f,-avx512dq,-avx512cd,-avx512bw,-avx512vl,-avx512vnni,kvm=on,vmware-cpuid-freq=on"
  else
    "-cpu host,kvm=on,vendor=GenuineIntel,+kvm_pv_unhalt,+kvm_pv_eoi,+hypervisor,+invtsc,vmware-cpuid-freq=on"

/-- `pathlib.Path(p).parent` rendered as a string. -/
def parentDir (p : String) : String :=
  let rev := p.data.reverse.dropWhile (fun c => c ≠ '/')
  match rev with
  | [] => "."
  | [_] => "/"
  | _ :: rest => String.mk rest.reverse

def B64_ALPHABET : String :=
  "ABCDEFGHIJKLMNOPQRSTUVWXYZabcdefghijklmnopqrstuvwxyz0123456789+/"

def b64Char (n : Nat) : Char := (strGet B64_ALPHABET n).getD '?'

/-- Standard base64 of a byte list (padding included). -/
def base64Encode : List Nat → String
  | [] => ""
  | [a] => String.mk [b64Char (a / 4), b64Char ((a % 4) * 16), '=', '=']
  | [a, b] => String.mk [b64Char (a / 4), b64Char ((a % 4) * 16 + b / 16),
                         b64Char ((b % 16) * 4), '=']
  | a :: b :: c :: rest =>
      String.mk [b64Char (a / 4), b64Char ((a % 4) * 16 + b / 16),
                 b64Char ((b % 16) * 4 + c / 64), b64Char (c % 64)] ++ base64Encode rest

/-- UTF-8 bytes of the ASCII strings the source encodes. -/
def strBytes (s : String) : List Nat := s.data.map Char.toNat

/-- `planner._encode_smbios_value`: base64 for Proxmox `smbios1` fields. -/
def encode_smbios_value (value : String) : String := base64Encode (strBytes value)

/-- `planner._build_oc_disk_script`: the bash script that builds the
GPT+ESP OpenCore disk and patches `config.plist` (braces of the original
script text are written `\x7b`/`\x7d`). -/
def build_oc_disk_script (opencore_path _recovery_path dest : String) (_macos : String)
    (is_amd : Bool) (_cores : Int) (verbose_boot : Bool) (apple_services : Bool)
    (smbios_serial smbios_uuid smbios_mlb smbios_rom smbios_model : String) : String :=
  let amd_patch_block :=
    if is_amd then
      "kq=p[\"Kernel\"][\"Quirks\"]; " ++
      "kq[\"AppleCpuPmCfgLock\"]=True; " ++
      "kq[\"AppleXcpmCfgLock\"]=True; "
    else ""
  let platforminfo_block :=
    if apple_services ∧ smbios_serial ≠ "" then
      "pi=p.setdefault(\"PlatformInfo\",\x7b\x7d).setdefault(\"Generic\",\x7b\x7d); " ++
      "pi[\"SystemSerialNumber\"]=\"" ++ smbios_serial ++ "\"; " ++
      "pi[\"SystemProductName\"]=\"" ++ smbios_model ++ "\"; " ++
      "pi[\"SystemUUID\"]=\"" ++ smbios_uuid ++ "\"; " ++
      "pi[\"MLB\"]=\"" ++ smbios_mlb ++ "\"; " ++
      "pi[\"ROM\"]=bytes.fromhex(\"" ++ smbios_rom ++ "\"); " ++
      "p[\"PlatformInfo\"][\"UpdateSMBIOS\"]=True; " ++
      "p[\"PlatformInfo\"][\"UpdateDataHub\"]=True; "
    else ""
  "umount /tmp/oc-src 2>/dev/null; umount /tmp/oc-dest 2>/dev/null; " ++
  "for lo in $(losetup -j " ++ opencore_path ++ " -O NAME --noheadings 2>/dev/null); do umount -l $lo* 2>/dev/null; losetup -d $lo 2>/dev/null; done; " ++
  "for lo in $(losetup -j " ++ dest ++ " -O NAME --noheadings 2>/dev/null); do umount -l $lo* 2>/dev/null; losetup -d $lo 2>/dev/null; done; " ++
  "dd if=/dev/zero of=" ++ dest ++ " bs=1M count=1024 && " ++
  "sgdisk -Z " ++ dest ++ " && " ++
  "sgdisk -n 1:0:0 -t 1:EF00 -c 1:OPENCORE " ++ dest ++ " && " ++
  "SRC_LOOP=$(losetup -fP --show " ++ opencore_path ++ ") && " ++
  "\x7b [ -b \"$SRC_LOOP\" ] || \x7b echo 'ERROR: losetup failed for OpenCore source ISO. Hints: modprobe loop; losetup -a; ls /dev/loop*'; false; \x7d; \x7d && " ++
  "partprobe $SRC_LOOP 2>/dev/null; " ++
  "for _i in 1 2 3 4 5; do ls $\x7bSRC_LOOP\x7dp* &>/dev/null && break; sleep 1; partprobe $SRC_LOOP 2>/dev/null; done && " ++
  "mkdir -p /tmp/oc-src && " ++
  "SRC_PART=$(blkid -o device $SRC_LOOP $\x7bSRC_LOOP\x7dp* 2>/dev/null " ++
  "| xargs -I\x7b\x7d sh -c 'blkid -s TYPE -o value \x7b\x7d 2>/dev/null | grep -q vfat && echo \x7b\x7d' " ++
  "| head -1); " ++
  "if [ -n \"$SRC_PART\" ]; then mount \"$SRC_PART\" /tmp/oc-src; " ++
  "else echo 'WARN: No vfat partition found on source ISO via blkid, trying raw mount'; mount $SRC_LOOP /tmp/oc-src; fi && " ++
  "\x7b mountpoint -q /tmp/oc-src || \x7b echo \"ERROR: /tmp/oc-src is not mounted. Hints: file $SRC_LOOP; blkid $SRC_LOOP; dmesg | tail -5\"; false; \x7d; \x7d && " ++
  "DEST_LOOP=$(losetup -fP --show " ++ dest ++ ") && " ++
  "\x7b [ -b \"$DEST_LOOP\" ] || \x7b echo 'ERROR: losetup failed for OpenCore destination disk. Hints: modprobe loop; losetup -a; ls /dev/loop*'; false; \x7d; \x7d && " ++
  "partprobe $DEST_LOOP 2>/dev/null; " ++
  "for _i in 1 2 3 4 5; do ls $\x7bDEST_LOOP\x7dp* &>/dev/null && break; sleep 1; partprobe $DEST_LOOP 2>/dev/null; done && " ++
  "\x7b [ -b \"$\x7bDEST_LOOP\x7dp1\" ] || \x7b echo \"ERROR: $\x7bDEST_LOOP\x7dp1 not found after partprobe. Hint: Try running the script again (slow storage)\"; false; \x7d; \x7d && " ++
  "mkfs.fat -F 32 -n OPENCORE $\x7bDEST_LOOP\x7dp1 && " ++
  "mkdir -p /tmp/oc-dest && mount $\x7bDEST_LOOP\x7dp1 /tmp/oc-dest && " ++
  "\x7b mountpoint -q /tmp/oc-dest || \x7b echo \"ERROR: /tmp/oc-dest is not mounted. Hints: file $\x7bDEST_LOOP\x7dp1; blkid $\x7bDEST_LOOP\x7dp1; dmesg | tail -5\"; false; \x7d; \x7d && " ++
  "cp -a /tmp/oc-src/. /tmp/oc-dest/ && " ++
  "\x7b [ -d /tmp/oc-dest/EFI/OC ] || \x7b echo 'ERROR: OpenCore ISO does not contain expected EFI/OC directory. ISO may be corrupt.'; false; \x7d; \x7d && " ++
  "python3 -c '" ++
  "import plistlib; " ++
  "f=open(\"/tmp/oc-dest/EFI/OC/config.plist\",\"rb\"); p=plistlib.load(f); f.close(); " ++
  "p[\"Misc\"][\"Security\"][\"ScanPolicy\"]=0; " ++
  "p[\"Misc\"][\"Security\"][\"DmgLoading\"]=\"Any\"; " ++
  "p[\"Misc\"][\"Security\"][\"SecureBootModel\"]=\"Disabled\"; " ++
  "p[\"Misc\"][\"Boot\"][\"Timeout\"]=15; " ++
  "p[\"Misc\"][\"Boot\"][\"PickerAttributes\"]=17; " ++
  "p[\"Misc\"][\"Boot\"][\"HideAuxiliary\"]=True; " ++
  "p[\"Misc\"][\"Boot\"][\"PickerMode\"]=\"External\"; " ++
  "p[\"Misc\"][\"Boot\"][\"PickerVariant\"]=\"Acidanthera\\\\Syrah\"; " ++
  "p[\"NVRAM\"][\"Add\"][\"7C436110-AB2A-4BBB-A880-FE41995C9F82\"][\"csr-active-config\"]=b\"\\x67\\x0f\\x00\\x00\"; " ++
  "p[\"NVRAM\"][\"Add\"][\"7C436110-AB2A-4BBB-A880-FE41995C9F82\"][\"boot-args\"]=\"keepsyms=1 debug=0x100" ++
  (if verbose_boot then " -v" else "") ++ "\"; " ++
  "p[\"NVRAM\"][\"Add\"][\"7C436110-AB2A-4BBB-A880-FE41995C9F82\"][\"prev-lang:kbd\"]=\"en-US:0\".encode(); " ++
  "nv_del=p.setdefault(\"NVRAM\",\x7b\x7d).setdefault(\"Delete\",\x7b\x7d); " ++
  "nv_del[\"7C436110-AB2A-4BBB-A880-FE41995C9F82\"]=[\"csr-active-config\",\"boot-args\",\"prev-lang:kbd\"]; " ++
  "p[\"NVRAM\"][\"WriteFlash\"]=True; " ++
  "[k.update(Enabled=True) for k in p.get(\"Kernel\",\x7b\x7d).get(\"Add\",[]) if \"VirtualSMC\" in k.get(\"BundlePath\",\"\")]; " ++
  amd_patch_block ++ platforminfo_block ++
  "f=open(\"/tmp/oc-dest/EFI/OC/config.plist\",\"wb\"); plistlib.dump(p,f); f.close(); " ++
  "print(\"config.plist patched\")' && " ++
  "echo Auxiliary > /tmp/oc-dest/.contentVisibility && " ++
  "\x7b umount /tmp/oc-src || umount -l /tmp/oc-src; \x7d && losetup -d $SRC_LOOP && " ++
  "\x7b umount /tmp/oc-dest || umount -l /tmp/oc-dest; \x7d && losetup -d $DEST_LOOP"

/-- The `bash -c` body of the "Import and attach OpenCore disk" step. -/
def import_oc_script (vmid oc_disk storage : String) : String :=
  "if qm disk import --help >/dev/null 2>&1; then IMPORT_CMD='qm disk import'; else IMPORT_CMD='qm importdisk'; fi && " ++
  "REF=$($IMPORT_CMD " ++ vmid ++ " " ++ oc_disk ++ " " ++ storage ++ " 2>&1 | " ++
  "grep 'successfully imported' | grep -oP \"'\\K[^']+\") && " ++
  "qm set " ++ vmid ++ " --ide0 $REF,media=disk && " ++
  "DEV=$(pvesm path $REF) && " ++
  "dd if=" ++ oc_disk ++ " of=$DEV bs=512 count=2048 conv=notrunc 2>/dev/null"

/-- The `bash -c` body of the "Stamp recovery with Apple icon flavour" step. -/
def stamp_recovery_script (recovery_raw macos_label : String) : String :=
  "python3 -c '" ++
  "import struct,subprocess; " ++
  "img=\"" ++ recovery_raw ++ "\"; " ++
  "out=subprocess.check_output([\"sgdisk\",\"-i\",\"1\",img],text=True); " ++
  "start=int([l for l in out.splitlines() if \"First sector\" in l][0].split(\":\")[1].split(\"(\")[0].strip()); " ++
  "off=start*512+1024+4; " ++
  "f=open(img,\"r+b\"); f.seek(off); " ++
  "a=struct.unpack(\">I\",f.read(4))[0]; " ++
  "a=(a|0x100)&~0x800; " ++
  "f.seek(off); f.write(struct.pack(\">I\",a)); " ++
  "f.close(); print(\"HFS+ flags fixed\")' && " ++
  "for lo in $(losetup -j " ++ recovery_raw ++ " -O NAME --noheadings 2>/dev/null); do umount -l $lo* 2>/dev/null; losetup -d $lo 2>/dev/null; done; " ++
  "RLOOP=$(losetup -fP --show " ++ recovery_raw ++ ") && " ++
  "\x7b [ -b \"$RLOOP\" ] || \x7b echo 'ERROR: losetup failed for recovery image. Hints: modprobe loop; losetup -a; ls /dev/loop*'; false; \x7d; \x7d && " ++
  "partprobe $RLOOP 2>/dev/null; " ++
  "for _i in 1 2 3 4 5; do ls $\x7bRLOOP\x7dp* &>/dev/null && break; sleep 1; partprobe $RLOOP 2>/dev/null; done && " ++
  "\x7b [ -b \"$\x7bRLOOP\x7dp1\" ] || \x7b echo \"ERROR: $\x7bRLOOP\x7dp1 not found after partprobe. Hint: Try running the script again (slow storage)\"; false; \x7d; \x7d && " ++
  "mkdir -p /tmp/oc-recovery && " ++
  "mount -t hfsplus -o rw $\x7bRLOOP\x7dp1 /tmp/oc-recovery && " ++
  "\x7b mountpoint -q /tmp/oc-recovery || \x7b echo \"ERROR: /tmp/oc-recovery is not mounted. Hints: file $\x7bRLOOP\x7dp1; blkid $\x7bRLOOP\x7dp1; dmesg | tail -5\"; false; \x7d; \x7d && " ++
  "mkdir -p /tmp/oc-recovery/System/Library/CoreServices && " ++
  "rm -f /tmp/oc-recovery/System/Library/CoreServices/.contentDetails 2>/dev/null; " ++
  "printf '" ++ macos_label ++ "' > /tmp/oc-recovery/System/Library/CoreServices/.contentDetails && " ++
  "ICON=$(find /tmp/oc-recovery -path '*/Install macOS*/Contents/Resources/InstallAssistant.icns' 2>/dev/null | head -1) && " ++
  "if [ -n \"$ICON\" ]; then " ++
  "rm -f /tmp/oc-recovery/.VolumeIcon.icns; " ++
  "cp \"$ICON\" /tmp/oc-recovery/.VolumeIcon.icns && " ++
  "echo \"Volume icon set from $ICON\"; " ++
  "else echo \"No InstallAssistant.icns found, using default icon\"; fi && " ++
  "\x7b umount /tmp/oc-recovery || umount -l /tmp/oc-recovery; \x7d && losetup -d $RLOOP"

/-- The `bash -c` body of the "Import and attach macOS recovery" step. -/
def import_recovery_script (vmid recovery_raw storage : String) : String :=
  "if qm disk import --help >/dev/null 2>&1; then IMPORT_CMD='qm disk import'; else IMPORT_CMD='qm importdisk'; fi && " ++
  "REF=$($IMPORT_CMD " ++ vmid ++ " " ++ recovery_raw ++ " " ++ storage ++ " 2>&1 | " ++
  "grep 'successfully imported' | grep -oP \"'\\K[^']+\") && " ++
  "qm set " ++ vmid ++ " --ide2 $REF,media=disk"

/-- `planner._smbios_steps` (mutates the config when the serial is empty;
the mutated config is returned alongside the steps; `none` models an
exception inside `generate_smbios`). -/
def smbios_steps (c : VmConfig) (vmid : String) (r : SmbiosRand) :
    Option (List PlanStep × VmConfig) :=
  if c.no_smbios then some ([], c)
  else
    match (if c.smbios_serial = "" then
            (generate_smbios c.macos c.apple_services r).map (fun idn =>
              (idn.serial, idn.uuid, idn.model,
               { c with smbios_serial := idn.serial, smbios_uuid := idn.uuid,
                        smbios_model := idn.model, smbios_mlb := idn.mlb,
                        smbios_rom := idn.rom,
                        static_mac := if idn.mac ≠ "" ∧ c.static_mac = ""
                                      then idn.mac else c.static_mac }))
          else some (c.smbios_serial, c.smbios_uuid, c.smbios_model, c)) with
    | none => none
    | some (serial, uuid0, model0, c1) =>
      let model := if model0 = "" then model_for_macos c.macos else model0
      let smbios_value :=
        "uuid=" ++ uuid0 ++ ",base64=1," ++
        "serial=" ++ encode_smbios_value serial ++ "," ++
        "manufacturer=" ++ encode_smbios_value "Apple Inc." ++ "," ++
        "product=" ++ encode_smbios_value model ++ "," ++
        "family=" ++ encode_smbios_value "Mac"
      some ([{ title := "Set SMBIOS identity",
               argv := ["qm", "set", vmid, "--smbios1", smbios_value] }], c1)

/-- `planner._apple_services_steps` (fills `vmgenid`/`static_mac` when
empty, always rewrites `smbios_rom` from the MAC; random draws are the
explicit `vmgenidDraw`, `macR0`, `macRest`). -/
def apple_services_steps (c : VmConfig) (vmid : String) (vmgenidDraw : String)
    (macR0 : Nat) (macRest : List Nat) : List PlanStep × VmConfig :=
  if !c.apple_services then ([], c)
  else
    let c1 := if c.vmgenid = "" then { c with vmgenid := vmgenidDraw } else c
    let c2 := if c1.static_mac = ""
              then { c1 with static_mac := generate_mac macR0 macRest } else c1
    let c3 := { c2 with smbios_rom := generate_rom_from_mac c2.static_mac }
    ([{ title := "Configure vmgenid for Apple services",
        argv := ["qm", "set", vmid, "--vmgenid", c3.vmgenid] },
      { title := "Configure static MAC for Apple services",
        argv := ["qm", "set", vmid, "--net0",
                 "vmxnet3,bridge=" ++ c.bridge ++ ",macaddr=" ++ c3.static_mac ++
                 ",firewall=0"] }], c3)

/-- All random draws `build_plan` may consume. -/
structure PlanRand where
  smb : SmbiosRand
  vmgenidStr : String
  macR0 : Nat
  macRest : List Nat

/-- `planner.build_plan`.  The environment reads (`detect_cpu_info`,
`resolve_opencore_path`, `resolve_recovery_or_installer_path`) are the
parameters `cpu`, `opencore_path`, `recovery_raw`.  Returns the step list
together with the (possibly mutated) config; `none` models a raised
exception (unknown release, SMBIOS generation failure). -/
def build_plan (c : VmConfig) (cpu : CpuInfo) (opencore_path recovery_raw : String)
    (r : PlanRand) : Option (List PlanStep × VmConfig) :=
  match dictGet c.macos SUPPORTED_MACOS with
  | none => none
  | some meta =>
    let vmid := intStr c.vmid
    let oc_disk := pathJoin (parentDir opencore_path)
        ("opencore-" ++ c.macos ++ "-vm" ++ vmid ++ ".img")
    let macos_label := meta.label
    let cpu_flag := cpu_args cpu c.cpu_model
    let is_amd := cpu.vendor == "AMD"
    match smbios_steps c vmid r.smb with
    | none => none
    | some (smbSteps, c1) =>
      let ap := apple_services_steps c1 vmid r.vmgenidStr r.macR0 r.macRest
      let c2 := ap.2
      let steps :=
        [{ title := "Create VM shell",
           argv := ["qm", "create", vmid, "--name", c.name, "--ostype", "other",
                    "--machine", "q35", "--bios", "ovmf", "--cores", intStr c.cores,
                    "--sockets", "1", "--memory", intStr c.memory_mb, "--cpu", "host",
                    "--balloon", "0", "--agent", "enabled=1",
                    "--net0", "vmxnet3,bridge=" ++ c.bridge ++ ",firewall=0"] },
         { title := "Apply macOS hardware profile",
           argv := ["qm", "set", vmid, "--args",
                    "-device isa-applesmc,osk=\"ourhardworkbythesewordsguardedpleasedontsteal(c)AppleComputerInc\" " ++
                    "-smbios type=2 -device qemu-xhci -device usb-kbd -device usb-tablet " ++
                    "-global nec-usb-xhci.msi=off -global ICH9-LPC.acpi-pci-hotplug-with-bridge-support=off " ++
                    cpu_flag,
                    "--vga", "std", "--tablet", "1", "--scsihw", "virtio-scsi-pci"] }] ++
        smbSteps ++ ap.1 ++
        [{ title := "Attach EFI + TPM",
           argv := ["qm", "set", vmid,
                    "--efidisk0", c.storage ++ ":0,efitype=4m,pre-enrolled-keys=0",
                    "--tpmstate0", c.storage ++ ":0,version=v2.0"] },
         { title := "Create main disk",
           argv := ["qm", "set", vmid, "--virtio0",
                    c.storage ++ ":" ++ intStr c.disk_gb] },
         { title := "Build OpenCore boot disk",
           argv := ["bash", "-c",
                    build_oc_disk_script opencore_path recovery_raw oc_disk c.macos
                      is_amd c.cores c.verbose_boot c2.apple_services
                      c2.smbios_serial c2.smbios_uuid c2.smbios_mlb
                      c2.smbios_rom c2.smbios_model] },
         { title := "Import and attach OpenCore disk",
           argv := ["bash", "-c", import_oc_script vmid oc_disk c.storage] },
         { title := "Stamp recovery with Apple icon flavour",
           argv := ["bash", "-c", stamp_recovery_script recovery_raw macos_label] },
         { title := "Import and attach macOS recovery",
           argv := ["bash", "-c", import_recovery_script vmid recovery_raw c.storage] },
         { title := "Set boot order",
           argv := ["qm", "set", vmid, "--boot", "order=ide2;virtio0;ide0"] },
         { title := "Start VM", argv := ["qm", "start", vmid], risk := "action" }]
      let steps2 :=
        if meta.channel = "preview" then
          { title := "Preview warning",
            argv := ["echo",
                     "Notice: " ++ meta.label ++
                     " uses preview assets. Verify OpenCore and recovery sources before production use."],
            risk := "warn" } :: steps
        else steps
      some (steps2, c2)

/-- Prefix test on character lists (executable). -/
def listStartsWith : List Char → List Char → Bool
  | [], _ => true
  | _ :: _, [] => false
  | a :: as, b :: bs => a = b && listStartsWith as bs

/-- Substring scan on character lists (executable). -/
def containsAux (pat : List Char) : List Char → Bool
  | [] => pat.isEmpty
  | c :: rest => listStartsWith pat (c :: rest) || containsAux pat rest

/-- Executable substring test: does `pat` occur in `s`? -/
def containsB (s pat : String) : Bool := containsAux pat.data s.data

/-! ### Lemmas about `build_plan` -/

theorem string_ext {a b : String} (h : a.data = b.data) : a = b := by
  cases a; cases b; exact congrArg String.mk h

theorem boot_command_contains (vmid : String) :
    strContains (shlexJoin ["qm", "set", vmid, "--boot", "order=ide2;virtio0;ide0"])
      "--boot 'order=ide2;virtio0;ide0'" := by
  refine ⟨shlexQuote "qm" ++ " " ++ shlexQuote "set" ++ " " ++ shlexQuote vmid ++ " ", "", ?_⟩
  apply string_ext
  simp only [shlexJoin, data_append,
    show shlexQuote "qm" = "qm" from by decide,
    show shlexQuote "set" = "set" from by decide,
    show shlexQuote "--boot" = "--boot" from by decide,
    show shlexQuote "order=ide2;virtio0;ide0" = "'order=ide2;virtio0;ide0'" from by decide]
  simp [List.append_assoc]

theorem generate_smbios_isSome (macos : String) (aps : Bool) (r : SmbiosRand)
    (hr : SmbiosRandValid r) : ∃ idn, generate_smbios macos aps r = some idn := by
  cases aps
  · exact ⟨_, rfl⟩
  · obtain ⟨hmfg, hboard, hb1, hb2, _, _, _⟩ := hr
    obtain ⟨serial, hser, _⟩ := build_apple_serial_spec r.mfg hmfg
    obtain ⟨mlb, hmlb, _⟩ :=
      build_apple_mlb_spec r.mfg r.board r.block1 r.block2 hmfg hboard hb1 hb2
    refine ⟨{ serial := serial, mlb := mlb, uuid := r.uuidStr,
              rom := generate_rom_from_mac (generate_mac r.macR0 r.macRest),
              model := "MacPro7,1",
              mac := generate_mac r.macR0 r.macRest }, ?_⟩
    unfold generate_smbios
    rw [if_pos rfl, model_for_macos_eq, hser, hmlb]

theorem smbios_steps_isSome (c : VmConfig) (vmid : String) (r : SmbiosRand)
    (hr : SmbiosRandValid r) : ∃ out, smbios_steps c vmid r = some out := by
  unfold smbios_steps
  by_cases h0 : c.no_smbios = true
  · rw [if_pos h0]; exact ⟨_, rfl⟩
  · rw [if_neg h0]
    by_cases h1 : c.smbios_serial = ""
    · rw [if_pos h1]
      obtain ⟨idn, hidn⟩ := generate_smbios_isSome c.macos c.apple_services r hr
      rw [hidn]
      exact ⟨_, rfl⟩
    · rw [if_neg h1]; exact ⟨_, rfl⟩

theorem validate_nil_macos (c : VmConfig) (h : validate_config c = []) :
    ∃ meta, dictGet c.macos SUPPORTED_MACOS = some meta := by
  by_cases hn : (dictGet c.macos SUPPORTED_MACOS).isNone = true
  · exfalso
    have hmem : "macOS version must be one of: ventura, sonoma, sequoia, tahoe."
        ∈ validate_config c := by
      unfold validate_config
      simp [mem_issueIf, hn]
    rw [h] at hmem
    simp at hmem
  · rcases ho : dictGet c.macos SUPPORTED_MACOS with _ | m
    · rw [ho] at hn; simp at hn
    · exact ⟨m, rfl⟩

/-- C5: every valid `VmConfig` yields a plan containing a step titled
"Set boot order" whose rendered command contains the literal
`--boot 'order=ide2;virtio0;ide0'` (the order value single-quoted by
`shlex.join` because of the semicolons). -/
theorem build_plan_boot_order (c : VmConfig) (cpu : CpuInfo) (ocp rcp : String)
    (r : PlanRand) (hval : validate_config c = []) (hr : SmbiosRandValid r.smb) :
    ∃ pr, build_plan c cpu ocp rcp r = some pr ∧
      ∃ st, st ∈ pr.1 ∧ st.title = "Set boot order" ∧
        strContains st.command "--boot 'order=ide2;virtio0;ide0'" := by
  obtain ⟨meta, hmeta⟩ := validate_nil_macos c hval
  obtain ⟨out, hout⟩ := smbios_steps_isSome c (intStr c.vmid) r.smb hr
  obtain ⟨ss, c1⟩ := out
  unfold build_plan
  simp only [hmeta, hout]
  refine ⟨_, rfl, ?_⟩
  refine ⟨{ title := "Set boot order",
            argv := ["qm", "set", intStr c.vmid, "--boot", "order=ide2;virtio0;ide0"],
            risk := "safe" }, ?_, rfl, boot_command_contains (intStr c.vmid)⟩
  by_cases hch : meta.channel = "preview" <;>
    simp [hch, List.mem_append, List.mem_cons]

/-- Concrete S1-style config used to instantiate the C5 theorem. -/
def c5Config : VmConfig :=
  { vmid := 901, name := "macos-test", macos := "sequoia", cores := 8,
    memory_mb := 16384, disk_gb := 128, bridge := "vmbr0", storage := "local-lvm",
    smbios_serial := "C02N1000P7QM",
    smbios_uuid := "92A1B2C3-D4E5-F607-1829-3A4B5C6D7E8F",
    smbios_mlb := "C02901200Q0K3F708", smbios_rom := "AA010203FAFF",
    smbios_model := "MacPro7,1" }

/-- Concrete random draws used to instantiate the C5 theorem. -/
def c5Rand : PlanRand :=
  { smb := { mfg := { country := "C02", year := 2019, week := 1, line := 0,
                      model_code := "P7QM" },
             board := "K3F7", block1 := "200", block2 := "Q0",
             macR0 := 0, macRest := [0, 0, 0, 0, 0],
             uuidStr := "", randSerial := "", randMlb := "", randRom := "" },
    vmgenidStr := "", macR0 := 0, macRest := [0, 0, 0, 0, 0] }

/-- A legacy-Intel host description used by concrete instantiations. -/
def c5Cpu : CpuInfo :=
  { vendor := "Intel", model_name := "", family := 6, model := 94,
    needs_emulated_cpu := false }

/-- Witness for C5 at the concrete S1 configuration. -/
theorem build_plan_boot_order_witness :
    (validate_config c5Config = [] ∧ SmbiosRandValid c5Rand.smb) ∧
    ∃ pr, build_plan c5Config c5Cpu
        "/var/lib/vz/template/iso/opencore-sequoia.iso"
        "/var/lib/vz/template/iso/sequoia-recovery.img" c5Rand = some pr ∧
      ∃ st, st ∈ pr.1 ∧ st.title = "Set boot order" ∧
        strContains st.command "--boot 'order=ide2;virtio0;ide0'" := by
  have hv : validate_config c5Config = [] := by decide
  have hr : SmbiosRandValid c5Rand.smb := by
    unfold SmbiosRandValid MfgValid c5Rand macPro71Data MLB_BLOCK1 MLB_BLOCK2
    decide
  exact ⟨⟨hv, hr⟩,
    build_plan_boot_order c5Config c5Cpu
      "/var/lib/vz/template/iso/opencore-sequoia.iso"
      "/var/lib/vz/template/iso/sequoia-recovery.img" c5Rand hv hr⟩

/-- Concrete config used by the C6 theorem (SMBIOS fields pre-set so the
plan is deterministic; Apple services off, as in scenario S1). -/
def c6Config : VmConfig :=
  { vmid := 901, name := "macos-test", macos := "sequoia", cores := 8,
    memory_mb := 16384, disk_gb := 128, bridge := "vmbr0", storage := "local-lvm",
    smbios_serial := "C02N1000P7QM",
    smbios_uuid := "92A1B2C3-D4E5-F607-1829-3A4B5C6D7E8F",
    smbios_mlb := "C02901200Q0K3F708", smbios_rom := "AA010203FAFF",
    smbios_model := "MacPro7,1" }

/-- Random draws for the C6 theorem (never consumed: the serial is set). -/
def c6Rand : PlanRand :=
  { smb := { mfg := { country := "C02", year := 2019, week := 1, line := 0,
                      model_code := "P7QM" },
             board := "K3F7", block1 := "200", block2 := "Q0",
             macR0 := 0, macRest := [0, 0, 0, 0, 0],
             uuidStr := "", randSerial := "", randMlb := "", randRom := "" },
    vmgenidStr := "", macR0 := 0, macRest := [0, 0, 0, 0, 0] }

set_option maxRecDepth 400000 in
/-- C6: in the plan built for the S1 configuration, the OpenCore build
script (the "Build OpenCore boot disk" step) contains `AppleCpuPmCfgLock`
and `AppleXcpmCfgLock` exactly when the detected CPU vendor is AMD; for
every Intel host — hybrid (`needs_emulated_cpu` true) or legacy — it
contains neither. -/
theorem build_plan_amd_quirks_iff (cpu : CpuInfo) :
    ∃ pr, build_plan c6Config cpu "/var/lib/vz/template/iso/opencore-sequoia.iso"
        "/var/lib/vz/template/iso/sequoia-recovery.img" c6Rand = some pr ∧
      ∃ script, pr.1.get? 5 = some { title := "Build OpenCore boot disk",
                                     argv := ["bash", "-c", script], risk := "safe" } ∧
        containsB script "AppleCpuPmCfgLock" = (cpu.vendor == "AMD") ∧
        containsB script "AppleXcpmCfgLock" = (cpu.vendor == "AMD") := by
  refine ⟨_, rfl, _, rfl, ?_, ?_⟩ <;>
    cases hB : (cpu.vendor == "AMD") <;> decide

/-! ### C2: does `build_plan` hold its `VmConfig` read-only? -/

/-- Equality of every `VmConfig` field outside the SMBIOS / vmgenid /
static-MAC group. -/
def FrameEq (a b : VmConfig) : Prop :=
  a.vmid = b.vmid ∧ a.name = b.name ∧ a.macos = b.macos ∧ a.cores = b.cores ∧
  a.memory_mb = b.memory_mb ∧ a.disk_gb = b.disk_gb ∧ a.bridge = b.bridge ∧
  a.storage = b.storage ∧ a.installer_path = b.installer_path ∧
  a.no_smbios = b.no_smbios ∧ a.apple_services = b.apple_services ∧
  a.verbose_boot = b.verbose_boot ∧ a.iso_dir = b.iso_dir ∧ a.cpu_model = b.cpu_model

theorem FrameEq_trans {a b c : VmConfig} (h1 : FrameEq a b) (h2 : FrameEq b c) :
    FrameEq a c := by
  obtain ⟨a1, a2, a3, a4, a5, a6, a7, a8, a9, a10, a11, a12, a13, a14⟩ := h1
  obtain ⟨b1, b2, b3, b4, b5, b6, b7, b8, b9, b10, b11, b12, b13, b14⟩ := h2
  exact ⟨a1.trans b1, a2.trans b2, a3.trans b3, a4.trans b4, a5.trans b5,
         a6.trans b6, a7.trans b7, a8.trans b8, a9.trans b9, a10.trans b10,
         a11.trans b11, a12.trans b12, a13.trans b13, a14.trans b14⟩

theorem smbios_steps_frameEq (c : VmConfig) (vmid : String) (r : SmbiosRand)
    (out : List PlanStep × VmConfig) (h : smbios_steps c vmid r = some out) :
    FrameEq out.2 c := by
  unfold smbios_steps at h
  by_cases h0 : c.no_smbios = true
  · rw [if_pos h0] at h
    cases h
    simp [FrameEq]
  · rw [if_neg h0] at h
    by_cases h1 : c.smbios_serial = ""
    · rw [if_pos h1] at h
      rcases hg : generate_smbios c.macos c.apple_services r with _ | idn
      · rw [hg] at h; simp at h
      · rw [hg] at h
        simp only [Option.map_some] at h
        cases h
        simp [FrameEq]
    · rw [if_neg h1] at h
      cases h
      simp [FrameEq]

theorem apple_services_steps_frameEq (c : VmConfig) (vmid g : String)
    (m0 : Nat) (mr : List Nat) :
    FrameEq (apple_services_steps c vmid g m0 mr).2 c := by
  unfold apple_services_steps
  by_cases h : (!c.apple_services) = true
  · rw [if_pos h]
    simp [FrameEq]
  · rw [if_neg h]
    by_cases h1 : c.vmgenid = "" <;> by_cases h2 : c.static_mac = "" <;>
      simp [h1, h2, FrameEq]

/-- C2 (amended): `build_plan` leaves every field outside the SMBIOS,
vmgenid and static-MAC group unchanged; it does fill those in (see the
counterexample), so the config is not held read-only. -/
theorem build_plan_frame (c : VmConfig) (cpu : CpuInfo) (ocp rcp : String)
    (r : PlanRand) (pr : List PlanStep × VmConfig)
    (h : build_plan c cpu ocp rcp r = some pr) : FrameEq pr.2 c := by
  unfold build_plan at h
  rcases hm : dictGet c.macos SUPPORTED_MACOS with _ | meta
  · rw [hm] at h; simp at h
  · simp only [hm] at h
    rcases hs : smbios_steps c (intStr c.vmid) r.smb with _ | out
    · simp only [hs] at h
      exact absurd h (by simp)
    · obtain ⟨ss, c1⟩ := out
      simp only [hs] at h
      have h2 : pr.2 =
          (apple_services_steps c1 (intStr c.vmid) r.vmgenidStr r.macR0 r.macRest).2 := by
        cases h
        rfl
      rw [h2]
      exact FrameEq_trans
        (apple_services_steps_frameEq c1 (intStr c.vmid) r.vmgenidStr r.macR0 r.macRest)
        (smbios_steps_frameEq c (intStr c.vmid) r.smb (ss, c1) hs)

/-- A legacy-Intel host description for the C2 instantiations. -/
def c2Cpu : CpuInfo :=
  { vendor := "Intel", model_name := "", family := 6, model := 94,
    needs_emulated_cpu := false }

/-- Config for the C2 counterexample: the SMBIOS block is empty, as in a
fresh S1 run, so `build_plan` generates and writes an identity into it. -/
def c2MutConfig : VmConfig :=
  { vmid := 901, name := "macos-test", macos := "sequoia", cores := 8,
    memory_mb := 16384, disk_gb := 128, bridge := "vmbr0", storage := "local-lvm" }

/-- Random draws for the C2 counterexample. -/
def c2MutRand : PlanRand :=
  { smb := { mfg := { country := "C02", year := 2019, week := 1, line := 0,
                      model_code := "P7QM" },
             board := "K3F7", block1 := "200", block2 := "Q0",
             macR0 := 0, macRest := [0, 0, 0, 0, 0],
             uuidStr := "92A1B2C3-D4E5-F607-1829-3A4B5C6D7E8F",
             randSerial := "ABCDEF123456", randMlb := "ABCDEFGHJK1234567",
             randRom := "AB12CD34EF56" },
    vmgenidStr := "", macR0 := 0, macRest := [0, 0, 0, 0, 0] }

/-- C2 counterexample: calling `build_plan` on a config whose
`smbios_serial` was empty leaves the config with a generated, non-empty
serial — `build_plan` mutates its argument. -/
theorem build_plan_mutates_config :
    c2MutConfig.smbios_serial = "" ∧
    ∃ pr, build_plan c2MutConfig c2Cpu "/var/lib/vz/template/iso/opencore-sequoia.iso"
        "/var/lib/vz/template/iso/sequoia-recovery.img" c2MutRand = some pr ∧
      pr.2.smbios_serial = "ABCDEF123456" :=
  ⟨rfl, ⟨_, rfl, rfl⟩⟩

/-- Witness for C2's amended frame theorem at the same concrete input. -/
theorem build_plan_frame_witness :
    ∃ pr, build_plan c2MutConfig c2Cpu "/var/lib/vz/template/iso/opencore-sequoia.iso"
        "/var/lib/vz/template/iso/sequoia-recovery.img" c2MutRand = some pr ∧
      FrameEq pr.2 c2MutConfig :=
  ⟨_, rfl, build_plan_frame c2MutConfig c2Cpu
    "/var/lib/vz/template/iso/opencore-sequoia.iso"
    "/var/lib/vz/template/iso/sequoia-recovery.img" c2MutRand _ rfl⟩

end OsxProxmox
